import Mathlib

/-!
Verification of the image-upload metadata API (lambda handlers, DynamoDB and
S3 service layers) against its natural-language specification.  The Python
source is shallowly embedded: pure helpers become Lean functions, the DynamoDB
table and the S3 bucket become explicit state values threaded through the
handler functions, and backend faults are injected as explicit parameters.
-/

/-- Lexicographic order (non-strict) on character lists, comparing code
points; models Python string comparison / DynamoDB string key comparison
(identical to byte order for the ASCII data exchanged here). -/
def lexLe : List Char → List Char → Bool
  | [], _ => true
  | _ :: _, [] => false
  | a :: as, b :: bs =>
    if a.toNat < b.toNat then true
    else if a.toNat = b.toNat then lexLe as bs
    else false

/-- Lexicographic order (strict) on character lists. -/
def lexLt : List Char → List Char → Bool
  | [], [] => false
  | [], _ :: _ => true
  | _ :: _, [] => false
  | a :: as, b :: bs =>
    if a.toNat < b.toNat then true
    else if a.toNat = b.toNat then lexLt as bs
    else false

/-- Non-strict string comparison used for DynamoDB sort-key ranges. -/
def strLe (a b : String) : Bool := lexLe a.data b.data

/-- Strict string comparison used for index-position comparisons. -/
def strLt (a b : String) : Bool := lexLt a.data b.data

theorem lexLe_total (a b : List Char) : lexLe a b = true ∨ lexLe b a = true := by
  induction a generalizing b with
  | nil => left; rfl
  | cons x xs ih =>
    cases b with
    | nil => right; rfl
    | cons y ys =>
      by_cases hxy : x.toNat < y.toNat
      · left; simp [lexLe, hxy]
      · by_cases hyx : y.toNat < x.toNat
        · right; simp [lexLe, hyx]
        · have hx : x.toNat = y.toNat := by omega
          rcases ih ys with h | h
          · left; simp [lexLe, hx, h]
          · right; simp [lexLe, hx.symm, h, Nat.lt_irrefl]

theorem lexLe_trans {a b c : List Char} (hab : lexLe a b = true)
    (hbc : lexLe b c = true) : lexLe a c = true := by
  induction a generalizing b c with
  | nil => rfl
  | cons x xs ih =>
    cases b with
    | nil => simp [lexLe] at hab
    | cons y ys =>
      cases c with
      | nil => simp [lexLe] at hbc
      | cons z zs =>
        simp only [lexLe] at hab hbc ⊢
        by_cases hxy : x.toNat < y.toNat
        · by_cases hyz : y.toNat < z.toNat
          · simp [show x.toNat < z.toNat by omega]
          · simp only [hyz, if_false] at hbc
            by_cases hyz2 : y.toNat = z.toNat
            · simp [show x.toNat < z.toNat by omega]
            · simp [hyz2] at hbc
        · simp only [hxy, if_false] at hab
          by_cases hxy2 : x.toNat = y.toNat
          · simp only [hxy2, if_true] at hab
            by_cases hyz : y.toNat < z.toNat
            · simp [show x.toNat < z.toNat by omega]
            · simp only [hyz, if_false] at hbc
              by_cases hyz2 : y.toNat = z.toNat
              · simp only [hyz2, if_true] at hbc
                have hxz : x.toNat = z.toNat := by omega
                simp [show ¬ x.toNat < z.toNat by omega, hxz, ih hab hbc]
              · simp [hyz2] at hbc
          · simp [hxy2] at hab

/-- The standard base64 alphabet, as used by `base64.b64encode`. -/
def b64Alphabet : List Char :=
  "ABCDEFGHIJKLMNOPQRSTUVWXYZabcdefghijklmnopqrstuvwxyz0123456789+/".data

/-- Character for a six-bit value (0–63). -/
def b64Char (n : Nat) : Char := b64Alphabet.getD n 'A'

/-- Index of a character in the base64 alphabet, `none` when absent. -/
def b64Index (c : Char) : Option Nat := b64Alphabet.indexOf? c

/-- Whether a character belongs to the base64 alphabet. -/
def isB64Char (c : Char) : Bool := (b64Index c).isSome

/-- Base64 encoding of a byte sequence with `=` padding, as produced by
Python's `base64.b64encode` on the standard alphabet. -/
def b64encode : List Nat → List Char
  | [] => []
  | [b0] =>
    [b64Char (b0 / 4), b64Char (b0 % 4 * 16), '=', '=']
  | [b0, b1] =>
    [b64Char (b0 / 4), b64Char (b0 % 4 * 16 + b1 / 16), b64Char (b1 % 16 * 4), '=']
  | b0 :: b1 :: b2 :: rest =>
    b64Char (b0 / 4) :: b64Char (b0 % 4 * 16 + b1 / 16) ::
      b64Char (b1 % 16 * 4 + b2 / 64) :: b64Char (b2 % 64) :: b64encode rest

/-- Decode base64 quads (padding allowed only in the final quad), the core
of `base64.b64decode` once foreign characters have been discarded. -/
def b64decodeQuads : List Char → Option (List Nat)
  | [] => some []
  | c1 :: c2 :: c3 :: c4 :: rest => do
    let s1 ← b64Index c1
    let s2 ← b64Index c2
    if c4 = '=' then
      if rest ≠ [] then none
      else if c3 = '=' then
        some [s1 * 4 + s2 / 16]
      else do
        let s3 ← b64Index c3
        some [s1 * 4 + s2 / 16, s2 % 16 * 16 + s3 / 4]
    else do
      let s3 ← b64Index c3
      let s4 ← b64Index c4
      let bs ← b64decodeQuads rest
      some ((s1 * 4 + s2 / 16) :: (s2 % 16 * 16 + s3 / 4) :: (s3 % 4 * 64 + s4) :: bs)
  | _ => none

/-- Model of `base64.b64decode` with `validate=False`: characters outside the
alphabet (other than padding) are discarded, then the length must be a
multiple of four and the quads are decoded. -/
def b64decode (s : List Char) : Option (List Nat) :=
  let t := s.filter (fun c => isB64Char c || c = '=')
  if t.length % 4 = 0 then b64decodeQuads t else none

theorem b64Index_b64Char_fin : ∀ n : Fin 64, b64Index (b64Char n.val) = some n.val := by
  decide

theorem b64Index_b64Char {n : Nat} (h : n < 64) : b64Index (b64Char n) = some n :=
  b64Index_b64Char_fin ⟨n, h⟩

theorem b64Alphabet_length : b64Alphabet.length = 64 := by decide

theorem isB64Char_b64Char (n : Nat) : isB64Char (b64Char n) = true := by
  by_cases h : n < 64
  · simp [isB64Char, b64Index_b64Char h]
  · have hA : b64Char n = 'A' := by
      have hlen : b64Alphabet.length ≤ n := by rw [b64Alphabet_length]; omega
      simp [b64Char, List.getD, List.getElem?_eq_none hlen]
    rw [hA]; decide

theorem b64Char_ne_pad_fin : ∀ n : Fin 64, b64Char n.val ≠ '=' := by decide

theorem b64Char_ne_pad {n : Nat} (h : n < 64) : b64Char n ≠ '=' :=
  b64Char_ne_pad_fin ⟨n, h⟩

/-- Every character emitted by the encoder survives the decoder's
foreign-character filter. -/
theorem b64encode_filter (bs : List Nat) :
    (b64encode bs).filter (fun c => isB64Char c || c = '=') = b64encode bs := by
  rw [List.filter_eq_self]
  intro c hc
  induction bs using b64encode.induct with
  | case1 => simp [b64encode] at hc
  | case2 b0 =>
    simp only [b64encode, List.mem_cons, List.not_mem_nil, or_false] at hc
    rcases hc with h | h | h | h <;> subst h <;> simp [isB64Char_b64Char]
  | case3 b0 b1 =>
    simp only [b64encode, List.mem_cons, List.not_mem_nil, or_false] at hc
    rcases hc with h | h | h | h <;> subst h <;> simp [isB64Char_b64Char]
  | case4 b0 b1 b2 rest ih =>
    simp only [b64encode, List.mem_cons] at hc
    rcases hc with h | h | h | h | h
    · subst h; simp [isB64Char_b64Char]
    · subst h; simp [isB64Char_b64Char]
    · subst h; simp [isB64Char_b64Char]
    · subst h; simp [isB64Char_b64Char]
    · exact ih h

theorem b64encode_length_mod (bs : List Nat) : (b64encode bs).length % 4 = 0 := by
  induction bs using b64encode.induct with
  | case1 => simp [b64encode]
  | case2 b0 => simp [b64encode]
  | case3 b0 b1 => simp [b64encode]
  | case4 b0 b1 b2 rest ih =>
    simp only [b64encode, List.length_cons]
    omega

theorem b64decodeQuads_b64encode {bs : List Nat} (h : ∀ b ∈ bs, b < 256) :
    b64decodeQuads (b64encode bs) = some bs := by
  induction bs using b64encode.induct with
  | case1 => rfl
  | case2 b0 =>
    have hb0 : b0 < 256 := h b0 (by simp)
    have e1 : b64Index (b64Char (b0 / 4)) = some (b0 / 4) :=
      b64Index_b64Char (by omega)
    have e2 : b64Index (b64Char (b0 % 4 * 16)) = some (b0 % 4 * 16) :=
      b64Index_b64Char (by omega)
    simp [b64encode, b64decodeQuads, e1, e2]
    omega
  | case3 b0 b1 =>
    have hb0 : b0 < 256 := h b0 (by simp)
    have hb1 : b1 < 256 := h b1 (by simp)
    have e1 : b64Index (b64Char (b0 / 4)) = some (b0 / 4) :=
      b64Index_b64Char (by omega)
    have e2 : b64Index (b64Char (b0 % 4 * 16 + b1 / 16)) = some (b0 % 4 * 16 + b1 / 16) :=
      b64Index_b64Char (by omega)
    have e3 : b64Index (b64Char (b1 % 16 * 4)) = some (b1 % 16 * 4) :=
      b64Index_b64Char (by omega)
    have ne3 : b64Char (b1 % 16 * 4) ≠ '=' := b64Char_ne_pad (by omega)
    simp [b64encode, b64decodeQuads, e1, e2, e3, ne3]
    omega
  | case4 b0 b1 b2 rest ih =>
    have hb0 : b0 < 256 := h b0 (by simp)
    have hb1 : b1 < 256 := h b1 (by simp)
    have hb2 : b2 < 256 := h b2 (by simp)
    have hrest : ∀ b ∈ rest, b < 256 := fun b hb => h b (by simp [hb])
    have e1 : b64Index (b64Char (b0 / 4)) = some (b0 / 4) :=
      b64Index_b64Char (by omega)
    have e2 : b64Index (b64Char (b0 % 4 * 16 + b1 / 16)) = some (b0 % 4 * 16 + b1 / 16) :=
      b64Index_b64Char (by omega)
    have e3 : b64Index (b64Char (b1 % 16 * 4 + b2 / 64)) = some (b1 % 16 * 4 + b2 / 64) :=
      b64Index_b64Char (by omega)
    have e4 : b64Index (b64Char (b2 % 64)) = some (b2 % 64) :=
      b64Index_b64Char (by omega)
    have ne4 : b64Char (b2 % 64) ≠ '=' := b64Char_ne_pad (by omega)
    simp [b64encode, b64decodeQuads, e1, e2, e3, e4, ne4, ih hrest]
    omega

/-- Round trip of the base64 transport layer. -/
theorem b64decode_b64encode {bs : List Nat} (h : ∀ b ∈ bs, b < 256) :
    b64decode (b64encode bs) = some bs := by
  simp [b64decode, b64encode_filter, b64encode_length_mod,
    b64decodeQuads_b64encode h]

/-- UTF-8 encoding of a character sequence (`str.encode()` in Python). -/
def utf8Encode : List Char → List Nat
  | [] => []
  | c :: cs =>
    let n := c.toNat
    (if n < 128 then [n]
     else if n < 2048 then [192 + n / 64, 128 + n % 64]
     else if n < 65536 then [224 + n / 4096, 128 + n / 64 % 64, 128 + n % 64]
     else [240 + n / 262144, 128 + n / 4096 % 64, 128 + n / 64 % 64, 128 + n % 64])
      ++ utf8Encode cs

/-- Whether a byte is a UTF-8 continuation byte. -/
def isUtf8Cont (b : Nat) : Bool := 128 ≤ b && b ≤ 191

/-- Decode one UTF-8 scalar from a leading byte and the remaining bytes,
rejecting malformed sequences, overlong forms and surrogates, as Python's
`bytes.decode('utf-8')` does. -/
def utf8DecodeOne (b : Nat) (rest : List Nat) : Option (Char × List Nat) :=
  if b < 128 then some (Char.ofNat b, rest)
  else if 194 ≤ b && b ≤ 223 then
    match rest with
    | b2 :: rest2 =>
      if isUtf8Cont b2 then some (Char.ofNat ((b - 192) * 64 + (b2 - 128)), rest2)
      else none
    | [] => none
  else if 224 ≤ b && b ≤ 239 then
    match rest with
    | b2 :: b3 :: rest2 =>
      let n := (b - 224) * 4096 + (b2 - 128) * 64 + (b3 - 128)
      if isUtf8Cont b2 && isUtf8Cont b3 && decide (2048 ≤ n) &&
          !(decide (55296 ≤ n) && decide (n ≤ 57343)) then
        some (Char.ofNat n, rest2)
      else none
    | _ => none
  else if 240 ≤ b && b ≤ 244 then
    match rest with
    | b2 :: b3 :: b4 :: rest2 =>
      let n := (b - 240) * 262144 + (b2 - 128) * 4096 + (b3 - 128) * 64 + (b4 - 128)
      if isUtf8Cont b2 && isUtf8Cont b3 && isUtf8Cont b4 &&
          decide (65536 ≤ n) && decide (n ≤ 1114111) then
        some (Char.ofNat n, rest2)
      else none
    | _ => none
  else none

/-- Fuelled UTF-8 decoding loop; one unit of fuel per decoded character. -/
def utf8DecodeAux : Nat → List Nat → Option (List Char)
  | _, [] => some []
  | 0, _ :: _ => none
  | fuel + 1, b :: rest => do
    let (c, r) ← utf8DecodeOne b rest
    let cs ← utf8DecodeAux fuel r
    some (c :: cs)

/-- UTF-8 decoding of a byte sequence (`bytes.decode('utf-8')` in Python);
the byte count bounds the number of decoded characters, so it is enough
fuel. -/
def utf8Decode (bs : List Nat) : Option (List Char) := utf8DecodeAux bs.length bs

theorem utf8DecodeOne_ascii {b : Nat} (hb : b < 128) (rest : List Nat) :
    utf8DecodeOne b rest = some (Char.ofNat b, rest) := by
  simp [utf8DecodeOne, hb]

theorem utf8Encode_length_ge (cs : List Char) : cs.length ≤ (utf8Encode cs).length := by
  induction cs with
  | nil => simp [utf8Encode]
  | cons c cs ih =>
    have hch : ∀ m : Nat, 1 ≤ (if m < 128 then [m]
        else if m < 2048 then [192 + m / 64, 128 + m % 64]
        else if m < 65536 then [224 + m / 4096, 128 + m / 64 % 64, 128 + m % 64]
        else [240 + m / 262144, 128 + m / 4096 % 64, 128 + m / 64 % 64,
          128 + m % 64]).length := by
      intro m
      by_cases h1 : m < 128
      · simp [h1]
      · by_cases h2 : m < 2048
        · simp [h1, h2]
        · by_cases h3 : m < 65536
          · simp [h1, h2, h3]
          · simp [h1, h2, h3]
    simp only [utf8Encode, List.length_append, List.length_cons]
    have := hch c.toNat
    omega

theorem utf8DecodeAux_utf8Encode_ascii {cs : List Char} {fuel : Nat}
    (h : ∀ c ∈ cs, c.toNat < 128) (hfuel : cs.length ≤ fuel) :
    utf8DecodeAux fuel (utf8Encode cs) = some cs := by
  induction cs generalizing fuel with
  | nil => cases fuel <;> rfl
  | cons c cs ih =>
    have hc : c.toNat < 128 := h c (by simp)
    have hcs : ∀ x ∈ cs, x.toNat < 128 := fun x hx => h x (by simp [hx])
    have he : utf8Encode (c :: cs) = c.toNat :: utf8Encode cs := by
      simp [utf8Encode, hc]
    obtain ⟨f, rfl⟩ : ∃ f, fuel = f + 1 := by
      cases fuel with
      | zero => simp at hfuel
      | succ f => exact ⟨f, rfl⟩
    rw [he]
    simp [utf8DecodeAux, utf8DecodeOne_ascii hc,
      ih hcs (show cs.length ≤ f by simpa using hfuel), Char.ofNat_toNat]

theorem utf8Decode_utf8Encode_ascii {cs : List Char}
    (h : ∀ c ∈ cs, c.toNat < 128) : utf8Decode (utf8Encode cs) = some cs :=
  utf8DecodeAux_utf8Encode_ascii h (utf8Encode_length_ge cs)

theorem utf8Encode_lt_256 {cs : List Char} (h : ∀ c ∈ cs, c.toNat < 128) :
    ∀ b ∈ utf8Encode cs, b < 256 := by
  induction cs with
  | nil => simp [utf8Encode]
  | cons c cs ih =>
    intro b hb
    have hc : c.toNat < 128 := h c (by simp)
    have hcs : ∀ x ∈ cs, x.toNat < 128 := fun x hx => h x (by simp [hx])
    simp only [utf8Encode, hc, if_pos, List.singleton_append, List.mem_cons] at hb
    rcases hb with hb | hb
    · omega
    · exact ih hcs b hb

/-- Hex character for a value 0–15, lowercase as produced by `"%04x"`. -/
def hexDigitChar (n : Nat) : Char := "0123456789abcdef".data.getD n '0'

/-- Value of a hex character, accepting both cases as `json.loads` does. -/
def hexDigitVal (c : Char) : Option Nat :=
  if 48 ≤ c.toNat && c.toNat ≤ 57 then some (c.toNat - 48)
  else if 97 ≤ c.toNat && c.toNat ≤ 102 then some (c.toNat - 87)
  else if 65 ≤ c.toNat && c.toNat ≤ 70 then some (c.toNat - 55)
  else none

/-- Four lowercase hex digits of a value below 65536 (`"\u%04x"`). -/
def hex4 (n : Nat) : List Char :=
  [hexDigitChar (n / 4096 % 16), hexDigitChar (n / 256 % 16),
   hexDigitChar (n / 16 % 16), hexDigitChar (n % 16)]

theorem hexDigitVal_hexDigitChar_fin :
    ∀ d : Fin 16, hexDigitVal (hexDigitChar d.val) = some d.val := by decide

theorem hexDigitVal_hexDigitChar {d : Nat} (h : d < 16) :
    hexDigitVal (hexDigitChar d) = some d := hexDigitVal_hexDigitChar_fin ⟨d, h⟩

/-- The opening brace character. -/
def lbrace : Char := Char.ofNat 123

/-- The closing brace character. -/
def rbrace : Char := Char.ofNat 125

/-- Escape of one character in a JSON string, as `json.dumps` with
`ensure_ascii=True` produces it: two-character shortcuts for the common
control characters, quote and backslash; printable ASCII verbatim; any other
character as `\uXXXX` (with a surrogate pair above the BMP). -/
def jsonEscapeChar (c : Char) : List Char :=
  if c = '"' then ['\\', '"']
  else if c = '\\' then ['\\', '\\']
  else if c.toNat = 8 then ['\\', 'b']
  else if c.toNat = 9 then ['\\', 't']
  else if c.toNat = 10 then ['\\', 'n']
  else if c.toNat = 12 then ['\\', 'f']
  else if c.toNat = 13 then ['\\', 'r']
  else if 32 ≤ c.toNat && c.toNat ≤ 126 then [c]
  else if c.toNat < 65536 then '\\' :: 'u' :: hex4 c.toNat
  else
    ('\\' :: 'u' :: hex4 (55296 + (c.toNat - 65536) / 1024)) ++
      ('\\' :: 'u' :: hex4 (56320 + (c.toNat - 65536) % 1024))

/-- Escape of a whole string body. -/
def jsonEscape : List Char → List Char
  | [] => []
  | c :: cs => jsonEscapeChar c ++ jsonEscape cs

/-- Serialization of one JSON string, quotes included. -/
def dumpJString (s : String) : List Char := '"' :: (jsonEscape s.data ++ ['"'])

/-- A native DynamoDB continuation key as exchanged by the cursor codec: a
mapping from index-key-attribute names to string values (all key attributes
of this table and its index are strings). -/
abbrev KeyMap := List (String × String)

/-- Serialization of the members of a JSON object holding string values,
with the `", "` and `": "` separators `json.dumps` uses by default. -/
def jsonDumpMembers : KeyMap → List Char
  | [] => []
  | [(k, v)] => dumpJString k ++ (':' :: ' ' :: dumpJString v)
  | (k, v) :: rest =>
    dumpJString k ++ (':' :: ' ' :: dumpJString v) ++ (',' :: ' ' :: jsonDumpMembers rest)

/-- Model of `json.dumps` on a string-valued mapping. -/
def jsonDumps (m : KeyMap) : List Char := lbrace :: (jsonDumpMembers m ++ [rbrace])

/-- JSON whitespace. -/
def isJsonWs (c : Char) : Bool := c = ' ' || c.toNat = 9 || c.toNat = 10 || c.toNat = 13

/-- Skip leading JSON whitespace. -/
def skipWs : List Char → List Char
  | [] => []
  | c :: cs => if isJsonWs c then skipWs cs else c :: cs

/-- Two-character escape shortcuts accepted inside JSON strings. -/
def escMap (c : Char) : Option Char :=
  if c = '"' then some '"'
  else if c = '\\' then some '\\'
  else if c = '/' then some '/'
  else if c = 'b' then some (Char.ofNat 8)
  else if c = 'f' then some (Char.ofNat 12)
  else if c = 'n' then some (Char.ofNat 10)
  else if c = 'r' then some (Char.ofNat 13)
  else if c = 't' then some (Char.ofNat 9)
  else none

/-- Parse the body of a JSON string up to its closing quote, fuelled (the
fuel only bounds recursion depth; one unit is spent per decoded character).
Models the strict `json.loads` string scanner on BMP data: control
characters are rejected, escapes and `\uXXXX` forms are decoded. -/
def parseStringBodyAux : Nat → List Char → Option (List Char × List Char)
  | 0, _ => none
  | fuel + 1, s =>
    match s with
    | [] => none
    | c :: rest =>
      if c = '"' then some ([], rest)
      else if c = '\\' then
        match rest with
        | [] => none
        | e :: rest2 =>
          if e = 'u' then
            match rest2 with
            | h1 :: h2 :: h3 :: h4 :: rest3 => do
              let d1 ← hexDigitVal h1
              let d2 ← hexDigitVal h2
              let d3 ← hexDigitVal h3
              let d4 ← hexDigitVal h4
              let (cs, r) ← parseStringBodyAux fuel rest3
              some (Char.ofNat (d1 * 4096 + d2 * 256 + d3 * 16 + d4) :: cs, r)
            | _ => none
          else do
            let c2 ← escMap e
            let (cs, r) ← parseStringBodyAux fuel rest2
            some (c2 :: cs, r)
      else if c.toNat < 32 then none
      else do
        let (cs, r) ← parseStringBodyAux fuel rest
        some (c :: cs, r)

/-- Parse a complete JSON string, quotes included. -/
def parseJString : List Char → Option (String × List Char)
  | [] => none
  | c :: rest =>
    if c = '"' then
      (parseStringBodyAux (rest.length + 1) rest).map (fun p => (String.mk p.1, p.2))
    else none

/-- Parse the members of a JSON object after its opening brace, one unit of
fuel per member, consuming the closing brace. -/
def parseMembersAux : Nat → List Char → Option (KeyMap × List Char)
  | 0, _ => none
  | fuel + 1, s => do
    let (k, s1) ← parseJString (skipWs s)
    match skipWs s1 with
    | c :: s2 =>
      if c = ':' then do
        let (v, s3) ← parseJString (skipWs s2)
        match skipWs s3 with
        | c2 :: s4 =>
          if c2 = ',' then do
            let (kvs, rest) ← parseMembersAux fuel s4
            some ((k, v) :: kvs, rest)
          else if c2 = rbrace then some ([(k, v)], s4)
          else none
        | [] => none
      else none
    | [] => none

/-- Model of `json.loads` restricted to the value domain the pagination
codec exchanges: a JSON object whose values are strings.  Inputs outside
this subset (arrays, numbers, nested objects) are outside the model. -/
def jsonLoads (s : List Char) : Option KeyMap :=
  match skipWs s with
  | c :: s1 =>
    if c = lbrace then
      match skipWs s1 with
      | c2 :: s2 =>
        if c2 = rbrace then
          if skipWs s2 = [] then some [] else none
        else
          match parseMembersAux (s.length + 1) (c2 :: s2) with
          | some (kvs, rest) => if skipWs rest = [] then some kvs else none
          | none => none
      | [] => none
    else none
  | [] => none

/-- A string whose characters all lie in the basic multilingual plane; the
serialization of such characters never needs surrogate pairs, which is the
domain on which the codec model is exact. -/
def bmpString (s : String) : Prop := ∀ c ∈ s.data, c.toNat < 65536

instance (s : String) : Decidable (bmpString s) :=
  inferInstanceAs (Decidable (∀ c ∈ s.data, c.toNat < 65536))

/-- A key map whose names and values are all BMP strings. -/
def bmpKeyMap (km : KeyMap) : Prop := ∀ p ∈ km, bmpString p.1 ∧ bmpString p.2

instance (km : KeyMap) : Decidable (bmpKeyMap km) :=
  inferInstanceAs (Decidable (∀ p ∈ km, bmpString p.1 ∧ bmpString p.2))

theorem skipWs_cons_of_not {c : Char} {cs : List Char} (h : isJsonWs c = false) :
    skipWs (c :: cs) = c :: cs := by simp [skipWs, h]

theorem skipWs_cons_of_ws {c : Char} {cs : List Char} (h : isJsonWs c = true) :
    skipWs (c :: cs) = skipWs cs := by simp [skipWs, h]

theorem string_mk_data (s : String) : String.mk s.data = s := rfl

theorem parseStringBodyAux_escape {cs rest : List Char} {fuel : Nat}
    (h : ∀ c ∈ cs, c.toNat < 65536) (hfuel : cs.length < fuel) :
    parseStringBodyAux fuel (jsonEscape cs ++ '"' :: rest) = some (cs, rest) := by
  induction cs generalizing fuel with
  | nil =>
    obtain ⟨f, rfl⟩ : ∃ f, fuel = f + 1 := ⟨fuel - 1, by omega⟩
    simp [jsonEscape, parseStringBodyAux]
  | cons c cs ih =>
    obtain ⟨f, rfl⟩ : ∃ f, fuel = f + 1 := ⟨fuel - 1, by omega⟩
    have hc : c.toNat < 65536 := h c (by simp)
    have hcs : ∀ x ∈ cs, x.toNat < 65536 := fun x hx => h x (by simp [hx])
    have ihf : parseStringBodyAux f (jsonEscape cs ++ '"' :: rest) = some (cs, rest) :=
      ih hcs (by simp only [List.length_cons] at hfuel; omega)
    by_cases hq : c = '"'
    · subst hq
      simp [jsonEscape, jsonEscapeChar, parseStringBodyAux, escMap, ihf]
    · by_cases hb : c = '\\'
      · subst hb
        simp [jsonEscape, jsonEscapeChar, parseStringBodyAux, escMap, ihf]
      · by_cases h8 : c.toNat = 8
        · have hcv : Char.ofNat 8 = c := by rw [← h8]; exact Char.ofNat_toNat c
          simp [jsonEscape, jsonEscapeChar, parseStringBodyAux, escMap, ihf,
            hq, hb, h8]
          exact hcv
        · by_cases h9 : c.toNat = 9
          · have hcv : Char.ofNat 9 = c := by rw [← h9]; exact Char.ofNat_toNat c
            simp [jsonEscape, jsonEscapeChar, parseStringBodyAux, escMap, ihf,
              hq, hb, h8, h9]
            exact hcv
          · by_cases h10 : c.toNat = 10
            · have hcv : Char.ofNat 10 = c := by rw [← h10]; exact Char.ofNat_toNat c
              simp [jsonEscape, jsonEscapeChar, parseStringBodyAux, escMap, ihf,
                hq, hb, h8, h9, h10]
              exact hcv
            · by_cases h12 : c.toNat = 12
              · have hcv : Char.ofNat 12 = c := by rw [← h12]; exact Char.ofNat_toNat c
                simp [jsonEscape, jsonEscapeChar, parseStringBodyAux, escMap, ihf,
                  hq, hb, h8, h9, h10, h12]
                exact hcv
              · by_cases h13 : c.toNat = 13
                · have hcv : Char.ofNat 13 = c := by rw [← h13]; exact Char.ofNat_toNat c
                  simp [jsonEscape, jsonEscapeChar, parseStringBodyAux, escMap, ihf,
                    hq, hb, h8, h9, h10, h12, h13]
                  exact hcv
                · by_cases hpr : 32 ≤ c.toNat ∧ c.toNat ≤ 126
                  · have hlt : ¬ c.toNat < 32 := by omega
                    simp [jsonEscape, jsonEscapeChar, parseStringBodyAux, ihf,
                      hq, hb, h8, h9, h10, h12, h13, hpr.1, hpr.2, hlt]
                  · have hd1 : hexDigitVal (hexDigitChar (c.toNat / 4096 % 16)) =
                        some (c.toNat / 4096 % 16) := hexDigitVal_hexDigitChar (by omega)
                    have hd2 : hexDigitVal (hexDigitChar (c.toNat / 256 % 16)) =
                        some (c.toNat / 256 % 16) := hexDigitVal_hexDigitChar (by omega)
                    have hd3 : hexDigitVal (hexDigitChar (c.toNat / 16 % 16)) =
                        some (c.toNat / 16 % 16) := hexDigitVal_hexDigitChar (by omega)
                    have hd4 : hexDigitVal (hexDigitChar (c.toNat % 16)) =
                        some (c.toNat % 16) := hexDigitVal_hexDigitChar (by omega)
                    have hsum : c.toNat / 4096 % 16 * 4096 + c.toNat / 256 % 16 * 256 +
                        c.toNat / 16 % 16 * 16 + c.toNat % 16 = c.toNat := by omega
                    have hnpr : ¬ (32 ≤ c.toNat ∧ c.toNat ≤ 126) := hpr
                    simp only [jsonEscape, jsonEscapeChar, hex4, if_neg hq, if_neg hb,
                      if_neg h8, if_neg h9, if_neg h10, if_neg h12, if_neg h13]
                    rw [if_neg (by simpa using fun h1 h2 => hnpr ⟨h1, h2⟩),
                      if_pos hc]
                    simp only [List.cons_append, List.nil_append]
                    simp [parseStringBodyAux, hd1, hd2, hd3, hd4, ihf, hsum,
                      Char.ofNat_toNat]

theorem jsonEscapeChar_length_pos (c : Char) : 1 ≤ (jsonEscapeChar c).length := by
  unfold jsonEscapeChar
  split
  · simp
  · split
    · simp
    · split
      · simp
      · split
        · simp
        · split
          · simp
          · split
            · simp
            · split
              · simp
              · split
                · simp
                · split
                  · simp [hex4]
                  · simp [hex4]

theorem jsonEscape_length_ge (cs : List Char) : cs.length ≤ (jsonEscape cs).length := by
  induction cs with
  | nil => simp [jsonEscape]
  | cons c cs ih =>
    have := jsonEscapeChar_length_pos c
    simp only [jsonEscape, List.length_append, List.length_cons]
    omega

theorem parseJString_dump {s : String} {rest : List Char} (h : bmpString s) :
    parseJString (dumpJString s ++ rest) = some (s, rest) := by
  have hlen : s.data.length < (jsonEscape s.data ++ '"' :: rest).length + 1 := by
    have := jsonEscape_length_ge s.data
    simp only [List.length_append, List.length_cons]
    omega
  simp only [dumpJString, List.cons_append, List.append_assoc, List.nil_append]
  simp only [parseJString, if_pos rfl]
  rw [parseStringBodyAux_escape h hlen]
  simp [string_mk_data]

theorem parseMembersAux_ws {fuel : Nat} {c : Char} {xs : List Char}
    (h : isJsonWs c = true) :
    parseMembersAux fuel (c :: xs) = parseMembersAux fuel xs := by
  cases fuel with
  | zero => rfl
  | succ f => simp only [parseMembersAux, skipWs_cons_of_ws h]

theorem dumpJString_length_ge (s : String) : 2 ≤ (dumpJString s).length := by
  simp only [dumpJString, List.length_cons, List.length_append]
  have := jsonEscape_length_ge s.data
  simp only [List.length_cons, List.length_nil]
  omega

theorem jsonDumpMembers_length_ge (km : KeyMap) :
    km.length ≤ (jsonDumpMembers km).length := by
  induction km with
  | nil => simp [jsonDumpMembers]
  | cons p tl ih =>
    obtain ⟨k, v⟩ := p
    cases tl with
    | nil =>
      have hk := dumpJString_length_ge k
      simp only [jsonDumpMembers, List.length_append, List.length_cons,
        List.length_nil]
      omega
    | cons q tl2 =>
      have hk := dumpJString_length_ge k
      simp only [jsonDumpMembers, List.length_append, List.length_cons] at ih ⊢
      omega

theorem skipWs_dumpJString (s : String) (xs : List Char) :
    skipWs (dumpJString s ++ xs) = dumpJString s ++ xs := by
  simp only [dumpJString, List.cons_append]
  exact skipWs_cons_of_not (by decide)

theorem parseMembersAux_dump {km : KeyMap} {fuel : Nat} {rest : List Char}
    (hne : km ≠ []) (hch : bmpKeyMap km) (hfuel : km.length ≤ fuel) :
    parseMembersAux fuel (jsonDumpMembers km ++ rbrace :: rest) = some (km, rest) := by
  induction km generalizing fuel rest with
  | nil => exact absurd rfl hne
  | cons p tl ih =>
    obtain ⟨k, v⟩ := p
    obtain ⟨f, rfl⟩ : ∃ f, fuel = f + 1 := ⟨fuel - 1, by simp at hfuel; omega⟩
    have hk : bmpString k := (hch (k, v) (by simp)).1
    have hv : bmpString v := (hch (k, v) (by simp)).2
    cases tl with
    | nil =>
      simp only [jsonDumpMembers, List.append_assoc, List.cons_append,
        List.nil_append, parseMembersAux, skipWs_dumpJString,
        parseJString_dump hk]
      simp only [Option.bind_eq_bind, Option.some_bind]
      rw [skipWs_cons_of_not (by decide)]
      simp only [if_pos rfl]
      rw [skipWs_cons_of_ws (by decide), skipWs_dumpJString,
        parseJString_dump hv]
      simp only [Option.bind_eq_bind, Option.some_bind]
      rw [skipWs_cons_of_not (by decide)]
      simp
      intro hcontra
      exact absurd hcontra (by decide)
    | cons q tl2 =>
      simp only [jsonDumpMembers, List.append_assoc, List.cons_append,
        List.nil_append, parseMembersAux, skipWs_dumpJString,
        parseJString_dump hk]
      simp only [Option.bind_eq_bind, Option.some_bind]
      rw [skipWs_cons_of_not (by decide)]
      simp only [if_pos rfl]
      rw [skipWs_cons_of_ws (by decide), skipWs_dumpJString,
        parseJString_dump hv]
      simp only [Option.bind_eq_bind, Option.some_bind]
      rw [skipWs_cons_of_not (by decide)]
      simp only [if_pos rfl]
      rw [parseMembersAux_ws (by decide)]
      rw [show jsonDumpMembers (q :: tl2) ++ rbrace :: rest =
        jsonDumpMembers (q :: tl2) ++ rbrace :: rest from rfl]
      rw [ih (by simp) (fun p hp => hch p (by simp [hp]))
        (by simp at hfuel ⊢; omega)]
      rfl

theorem jsonLoads_jsonDumps {km : KeyMap} (h : bmpKeyMap km) :
    jsonLoads (jsonDumps km) = some km := by
  cases km with
  | nil => rfl
  | cons p tl =>
    obtain ⟨t, ht⟩ : ∃ t, jsonDumpMembers (p :: tl) = '"' :: t := by
      obtain ⟨k, v⟩ := p
      cases tl with
      | nil => exact ⟨_, rfl⟩
      | cons q tl2 => exact ⟨_, rfl⟩
    have hfuel : (p :: tl).length ≤ (jsonDumps (p :: tl)).length + 1 := by
      have := jsonDumpMembers_length_ge (p :: tl)
      simp only [List.length_cons] at this
      simp only [jsonDumps, List.length_cons, List.length_append,
        List.length_nil]
      omega
    have hmem := @parseMembersAux_dump (p :: tl)
      ((jsonDumps (p :: tl)).length + 1) []
      (by simp) h hfuel
    unfold jsonLoads
    simp only [jsonDumps, ht, List.cons_append, List.nil_append] at hmem ⊢
    rw [skipWs_cons_of_not (by decide)]
    simp only [if_pos rfl]
    rw [skipWs_cons_of_not (by decide)]
    simp only []
    rw [if_neg (show ¬ (('"' : Char) = rbrace) from by decide)]
    rw [hmem]
    simp [skipWs]

theorem hexDigitChar_ascii_fin : ∀ d : Fin 16, (hexDigitChar d.val).toNat < 128 := by
  decide

theorem hexDigitChar_ascii (n : Nat) : (hexDigitChar n).toNat < 128 := by
  by_cases hn : n < 16
  · exact hexDigitChar_ascii_fin ⟨n, hn⟩
  · have hlen : ("0123456789abcdef".data).length ≤ n := by
      have : ("0123456789abcdef".data).length = 16 := by decide
      omega
    have : hexDigitChar n = '0' := by
      simp [hexDigitChar, List.getD, List.getElem?_eq_none hlen]
    rw [this]; decide

theorem hex4_ascii (n : Nat) : ∀ x ∈ hex4 n, x.toNat < 128 := by
  intro x hx
  simp only [hex4, List.mem_cons, List.not_mem_nil, or_false] at hx
  rcases hx with h | h | h | h <;> subst h <;> exact hexDigitChar_ascii _

theorem jsonEscapeChar_ascii {c : Char} (hbmp : c.toNat < 65536) :
    ∀ x ∈ jsonEscapeChar c, x.toNat < 128 := by
  intro x hx
  unfold jsonEscapeChar at hx
  split at hx
  · simp only [List.mem_cons, List.not_mem_nil, or_false] at hx
    rcases hx with rfl | rfl <;> decide
  · split at hx
    · simp only [List.mem_cons, List.not_mem_nil, or_false] at hx
      rcases hx with rfl | rfl <;> decide
    · split at hx
      · simp only [List.mem_cons, List.not_mem_nil, or_false] at hx
        rcases hx with rfl | rfl <;> decide
      · split at hx
        · simp only [List.mem_cons, List.not_mem_nil, or_false] at hx
          rcases hx with rfl | rfl <;> decide
        · split at hx
          · simp only [List.mem_cons, List.not_mem_nil, or_false] at hx
            rcases hx with rfl | rfl <;> decide
          · split at hx
            · simp only [List.mem_cons, List.not_mem_nil, or_false] at hx
              rcases hx with rfl | rfl <;> decide
            · split at hx
              · simp only [List.mem_cons, List.not_mem_nil, or_false] at hx
                rcases hx with rfl | rfl <;> decide
              · split at hx
                · next hpr =>
                    simp only [List.mem_singleton] at hx
                    subst hx
                    simp only [Bool.and_eq_true, decide_eq_true_eq] at hpr
                    omega
                · simp only [List.mem_cons] at hx
                  rcases hx with rfl | rfl | hx
                  · decide
                  · decide
                  · exact hex4_ascii _ x hx

theorem jsonEscape_ascii {cs : List Char} (h : ∀ c ∈ cs, c.toNat < 65536) :
    ∀ x ∈ jsonEscape cs, x.toNat < 128 := by
  induction cs with
  | nil => simp [jsonEscape]
  | cons c cs ih =>
    intro x hx
    simp only [jsonEscape, List.mem_append] at hx
    rcases hx with h1 | h1
    · exact jsonEscapeChar_ascii (h c (by simp)) x h1
    · exact ih (fun y hy => h y (by simp [hy])) x h1

theorem dumpJString_ascii {s : String} (h : bmpString s) :
    ∀ x ∈ dumpJString s, x.toNat < 128 := by
  intro x hx
  simp only [dumpJString, List.mem_cons, List.mem_append,
    List.mem_singleton, List.not_mem_nil, or_false] at hx
  rcases hx with h1 | h1 | h1
  · subst h1; decide
  · exact jsonEscape_ascii h x h1
  · subst h1; decide

theorem jsonDumpMembers_ascii {km : KeyMap} (h : bmpKeyMap km) :
    ∀ x ∈ jsonDumpMembers km, x.toNat < 128 := by
  induction km with
  | nil => simp [jsonDumpMembers]
  | cons p tl ih =>
    obtain ⟨k, v⟩ := p
    have hk : bmpString k := (h (k, v) (by simp)).1
    have hv : bmpString v := (h (k, v) (by simp)).2
    cases tl with
    | nil =>
      intro x hx
      simp only [jsonDumpMembers, List.mem_append, List.mem_cons] at hx
      rcases hx with h1 | h1 | h1 | h1
      · exact dumpJString_ascii hk x h1
      · subst h1; decide
      · subst h1; decide
      · exact dumpJString_ascii hv x h1
    | cons q tl2 =>
      intro x hx
      simp only [jsonDumpMembers, List.mem_append, List.mem_cons] at hx
      rcases hx with ((h1 | h1 | h1 | h1) | h1 | h1 | h1)
      · exact dumpJString_ascii hk x h1
      · subst h1; decide
      · subst h1; decide
      · exact dumpJString_ascii hv x h1
      · subst h1; decide
      · subst h1; decide
      · exact ih (fun y hy => h y (by simp [hy])) x h1

theorem jsonDumps_ascii {km : KeyMap} (h : bmpKeyMap km) :
    ∀ x ∈ jsonDumps km, x.toNat < 128 := by
  intro x hx
  simp only [jsonDumps, List.mem_cons, List.mem_append,
    List.mem_singleton, List.not_mem_nil, or_false] at hx
  rcases hx with h1 | h1 | h1
  · subst h1; decide
  · exact jsonDumpMembers_ascii h x h1
  · subst h1; decide

/-- Encoding of a native continuation key into the opaque pagination token:
`base64.b64encode(json.dumps(next_key).encode()).decode()` from
`list_images.handler`. -/
def encodeToken (k : KeyMap) : String :=
  String.mk (b64encode (utf8Encode (jsonDumps k)))

/-- Decoding of a client-supplied pagination token:
`json.loads(base64.b64decode(next_token))` from `list_images.handler`;
any failure in either step yields `none`. -/
def decodeToken (t : String) : Option KeyMap := do
  let bs ← b64decode t.data
  let cs ← utf8Decode bs
  jsonLoads cs

/-- The cursor codec round-trips every representable (BMP, string-valued)
continuation key. -/
theorem decodeToken_encodeToken {km : KeyMap} (h : bmpKeyMap km) :
    decodeToken (encodeToken km) = some km := by
  have hascii : ∀ x ∈ jsonDumps km, x.toNat < 128 := jsonDumps_ascii h
  unfold decodeToken encodeToken
  rw [show (String.mk (b64encode (utf8Encode (jsonDumps km)))).data =
    b64encode (utf8Encode (jsonDumps km)) from rfl]
  rw [b64decode_b64encode (utf8Encode_lt_256 hascii)]
  simp only [Option.bind_eq_bind, Option.some_bind]
  rw [utf8Decode_utf8Encode_ascii hascii]
  simp only [Option.bind_eq_bind, Option.some_bind]
  exact jsonLoads_jsonDumps h

/-- Image lifecycle status (`ImageStatus` str-enum). -/
inductive ImageStatus
  | pending
  | completed
  | failed
deriving DecidableEq, Repr

/-- The `.value` of the status enum member. -/
def ImageStatus.value : ImageStatus → String
  | pending => "pending"
  | completed => "completed"
  | failed => "failed"

/-- Parse a stored status string back into the enum, as pydantic does when
re-validating an item read from the table. -/
def parseStatus (s : String) : Option ImageStatus :=
  if s = "pending" then some ImageStatus.pending
  else if s = "completed" then some ImageStatus.completed
  else if s = "failed" then some ImageStatus.failed
  else none

/-- The content-type whitelist shared by the request models and validators. -/
def allowedContentTypes : List String :=
  ["image/jpeg", "image/png", "image/gif", "image/webp", "image/bmp"]

/-- The validated `ImageMetadata` pydantic model. -/
structure ImageMetadata where
  image_id : String
  user_id : String
  filename : String
  content_type : String
  file_size : Int
  upload_timestamp : String
  tags : Option (List String)
  description : Option String
  status : ImageStatus
  s3_key : String
deriving DecidableEq, Repr

/-- A DynamoDB item as this application writes it: primary key `image_id`
plus the attributes `put_item` / `update_status` set.  All non-key
attributes are optional because DynamoDB is schemaless and `update_item`
can create an item carrying only the SET attributes. -/
structure Item where
  image_id : String
  user_id : Option String := none
  filename : Option String := none
  content_type : Option String := none
  file_size : Option Int := none
  upload_timestamp : Option String := none
  tags : Option (List String) := none
  description : Option String := none
  status : Option String := none
  s3_key : Option String := none
  created_at : Option String := none
  updated_at : Option String := none
deriving DecidableEq, Repr

/-- The DynamoDB table state: the set of stored items (order carries the
backend-defined scan traversal order). -/
abbrev Table := List Item

/-- Point read of the raw item (`table.get_item(Key={'image_id': ...})`). -/
def get_item_raw (t : Table) (image_id : String) : Option Item :=
  t.find? (fun it => it.image_id = image_id)

/-- The item written by `DynamoDBService.put_item`: `metadata.dict()` plus
refreshed `created_at` / `updated_at` and the status enum's string value. -/
def metadataToItem (m : ImageMetadata) (now : String) : Item :=
  { image_id := m.image_id, user_id := some m.user_id,
    filename := some m.filename, content_type := some m.content_type,
    file_size := some m.file_size, upload_timestamp := some m.upload_timestamp,
    tags := m.tags, description := m.description,
    status := some m.status.value, s3_key := some m.s3_key,
    created_at := some now, updated_at := some now }

/-- `DynamoDBService.put_item`: unconditional insert-or-overwrite by the
primary key (last writer wins). -/
def put_item (t : Table) (m : ImageMetadata) (now : String) : Table :=
  metadataToItem m now :: t.filter (fun it => it.image_id ≠ m.image_id)

/-- `DynamoDBService.delete_item`: unconditional delete; an absent key is
not an error. -/
def delete_item (t : Table) (image_id : String) : Table :=
  t.filter (fun it => it.image_id ≠ image_id)

/-- Re-validation `ImageMetadata(**item)` performed by the service when an
item is read back: required attributes must be present, the content type
must be whitelisted, the size positive, the status parseable (defaulting to
completed when absent). -/
def itemToMetadata (it : Item) : Option ImageMetadata := do
  let uid ← it.user_id
  let fn ← it.filename
  let ct ← it.content_type
  if ct ∈ allowedContentTypes then
    let fs ← it.file_size
    if fs > 0 then
      let ts ← it.upload_timestamp
      let sk ← it.s3_key
      let st ← match it.status with
        | none => some ImageStatus.completed
        | some s => parseStatus s
      some { image_id := it.image_id, user_id := uid, filename := fn,
             content_type := ct, file_size := fs, upload_timestamp := ts,
             tags := it.tags, description := it.description,
             status := st, s3_key := sk }
    else none
  else none

/-- `DynamoDBService.get_item`: absent is a normal outcome (`.ok none`); a
stored item that fails pydantic re-validation raises, which the embedding
reports as `.error` (the handlers' outer catch turns it into a 500). -/
def get_item (t : Table) (image_id : String) :
    Except String (Option ImageMetadata) :=
  match get_item_raw t image_id with
  | none => Except.ok none
  | some it =>
    match itemToMetadata it with
    | some m => Except.ok (some m)
    | none => Except.error "pydantic validation error for stored item"

/-- `DynamoDBService.update_status`: DynamoDB `UpdateItem` with no condition
expression — it edits `status` / `updated_at` in place when the key exists
and, per the documented `UpdateItem` upsert semantics, creates a new item
holding only the key and the SET attributes when it does not.  Returns
`true` as the source does. -/
def update_status (t : Table) (image_id status now : String) : Table × Bool :=
  match get_item_raw t image_id with
  | some _ =>
    (t.map (fun it =>
      if it.image_id = image_id then
        { it with status := some status, updated_at := some now }
      else it), true)
  | none =>
    ({ image_id := image_id, status := some status,
       updated_at := some now : Item } :: t, true)

/-- Metadata S3's `head_object` reports for a stored object; the adapter
always builds the dict with both keys present, their values possibly None. -/
structure S3Meta where
  content_type : Option String
  content_length : Option Int
deriving DecidableEq, Repr

/-- The object-store state: stored keys with their reported metadata. -/
abbrev S3State := List (String × S3Meta)

/-- `S3Service.check_object_exists` (`head_object`, 404 means false). -/
def check_object_exists (s3 : S3State) (key : String) : Bool :=
  (s3.lookup key).isSome

/-- `S3Service.get_object_metadata` (`head_object`, 404 means None). -/
def get_object_metadata (s3 : S3State) (key : String) : Option S3Meta :=
  s3.lookup key

/-- `S3Service.delete_object`. -/
def s3_delete_object (s3 : S3State) (key : String) : S3State :=
  s3.filter (fun p => p.1 ≠ key)

/-- Last segment of a split (`s.split(sep)[-1]`); the split of any string is
a non-empty list, so the default is never used on real input. -/
def lastSegment (sep : Char) (cs : List Char) : List Char :=
  ((cs.splitOn sep).getLast?).getD []

/-- Characters the sanitizer keeps: `[a-zA-Z0-9._-]`. -/
def isAllowedFnChar (c : Char) : Bool :=
  (65 ≤ c.toNat && c.toNat ≤ 90) || (97 ≤ c.toNat && c.toNat ≤ 122) ||
    (48 ≤ c.toNat && c.toNat ≤ 57) || c = '.' || c = '_' || c = '-'

/-- Index of the last `'.'` in the list, if any (`rsplit('.', 1)` point). -/
def lastDotIdx (cs : List Char) : Option Nat :=
  (cs.reverse.indexOf? '.').map (fun i => cs.length - 1 - i)

/-- Python slice `l[:m]` for a possibly negative bound. -/
def pySlice (cs : List Char) (m : Int) : List Char :=
  if m ≥ 0 then cs.take m.toNat else cs.take (cs.length - (-m).toNat)

/-- `validators.sanitize_filename`: strip path components (last segment
after `/` and `\`), replace every character outside `[a-zA-Z0-9._-]` with
`_`, and when longer than 255 characters truncate, preserving the extension
after the last dot when there is one. -/
def sanitize_filename (filename : String) : String :=
  let cs := lastSegment '\\' (lastSegment '/' filename.data)
  let cs := cs.map (fun c => if isAllowedFnChar c then c else '_')
  if cs.length > 255 then
    let pair :=
      if cs.contains '.' then
        match lastDotIdx cs with
        | some i => (cs.take i, cs.drop (i + 1))
        | none => (cs, ([] : List Char))
      else (cs, ([] : List Char))
    let name := pair.1
    let ext := pair.2
    if ext ≠ [] then
      let maxNameLen : Int := 255 - ext.length - 1
      String.mk (pySlice name maxNameLen ++ '.' :: ext)
    else String.mk (name.take 255)
  else String.mk cs

/-- The `[ImageMetadata(**item) for item in items]` comprehension: parse
each returned item, failing the whole call on the first invalid one. -/
def mapMetadata : List Item → Option (List ImageMetadata)
  | [] => some []
  | it :: rest => do
    let m ← itemToMetadata it
    let ms ← mapMetadata rest
    some (m :: ms)

/-- Truthiness of an optional string (`if s:` in Python: absent and empty
are both falsy). -/
def optTruthy : Option String → Option String
  | some s => if s.isEmpty then none else some s
  | none => none

/-- The timestamp range selected by the KeyConditionExpression that
`query_by_user` builds: `BETWEEN` (inclusive both ends) when both bounds
are truthy, `>=` / `<=` when exactly one is, no constraint otherwise —
mirroring its `if start_date and end_date / elif start_date / elif
end_date` chain. -/
def tsInRange (start_date end_date : Option String) (ts : String) : Bool :=
  match optTruthy start_date, optTruthy end_date with
  | some s, some e => strLe s ts && strLe ts e
  | some s, none => strLe s ts
  | none, some e => strLe ts e
  | none, none => true

/-- Sort-key value of an item in the owner index. -/
def itemTs (it : Item) : String := it.upload_timestamp.getD ""

/-- Membership of an item in the owner+timestamp index under the built key
condition: DynamoDB only indexes items carrying both key attributes. -/
def gsiMatch (user_id : String) (sd ed : Option String) (it : Item) : Bool :=
  match it.user_id, it.upload_timestamp with
  | some u, some ts => u = user_id && tsInRange sd ed ts
  | _, _ => false

/-- Descending-timestamp order on items (`ScanIndexForward=False`). -/
def tsDescRel (a b : Item) : Prop := strLe (itemTs b) (itemTs a) = true

instance : DecidableRel tsDescRel := fun a b =>
  inferInstanceAs (Decidable (strLe (itemTs b) (itemTs a) = true))

instance : IsTotal Item tsDescRel :=
  ⟨fun a b => by
    unfold tsDescRel strLe
    exact lexLe_total (itemTs b).data (itemTs a).data⟩

instance : IsTrans Item tsDescRel :=
  ⟨fun a b c hab hbc => by
    unfold tsDescRel strLe at hab hbc ⊢
    exact lexLe_trans hbc hab⟩

/-- Attribute names DynamoDB requires in an `ExclusiveStartKey` for a Query
over the owner index: the index keys plus the table's primary key. -/
def queryKeyNames : List String := ["user_id", "upload_timestamp", "image_id"]

/-- Attribute names required in an `ExclusiveStartKey` for a table Scan. -/
def scanKeyNames : List String := ["image_id"]

/-- Whether a client-decoded key map carries exactly the expected attribute
names (DynamoDB rejects the request otherwise). -/
def validStartKey (expected : List String) (k : KeyMap) : Bool :=
  expected.all (fun n => (k.map Prod.fst).contains n) &&
    (k.map Prod.fst).all (fun n => expected.contains n)

/-- Timestamp carried by a continuation key. -/
def keyTs (k : KeyMap) : String := (k.lookup "upload_timestamp").getD ""

/-- Primary-key value carried by a continuation key. -/
def keyId (k : KeyMap) : String := (k.lookup "image_id").getD ""

/-- Position test for resuming a descending index traversal strictly after
the continuation key (ties on the sort key broken by the primary key). -/
def afterQueryKey (k : KeyMap) (it : Item) : Bool :=
  strLt (itemTs it) (keyTs k) ||
    (itemTs it = keyTs k && strLt it.image_id (keyId k))

/-- The continuation key DynamoDB reports for a Query page ending at this
item. -/
def itemQueryKey (it : Item) : KeyMap :=
  [("user_id", it.user_id.getD ""), ("upload_timestamp", itemTs it),
   ("image_id", it.image_id)]

/-- Shared page shape of a DynamoDB Query/Scan response: take `Limit`
items from the traversal position, report `LastEvaluatedKey` (built by
`mkKey` from the last page item) exactly when items remain beyond the
page, and re-validate every returned item through `ImageMetadata(**item)`
(`.error` when one fails, surfacing as a 500 at the handler boundary). -/
def pageResult (resumed : List Item) (limit : Nat) (mkKey : Item → KeyMap) :
    Except String (List ImageMetadata × Option KeyMap) :=
  match mapMetadata (resumed.take limit) with
  | some ms =>
    Except.ok (ms,
      if (resumed.take limit).length < resumed.length then
        match (resumed.take limit).getLast? with
        | some it => some (mkKey it)
        | none => none
      else none)
  | none => Except.error "pydantic validation error for stored item"

/-- `DynamoDBService.query_by_user`: Query over the owner+timestamp GSI
with the key condition built from the optional bounds, descending order
(`ScanIndexForward=False`), `Limit`, and optional `ExclusiveStartKey`
(resumption strictly after its index position; DynamoDB rejects a start
key whose attribute names do not match the key schema). -/
def query_by_user (t : Table) (user_id : String) (start_date end_date : Option String)
    (limit : Nat) (lek : Option KeyMap) :
    Except String (List ImageMetadata × Option KeyMap) :=
  let idx := List.insertionSort tsDescRel (t.filter (gsiMatch user_id start_date end_date))
  match lek with
  | some k =>
    if validStartKey queryKeyNames k then
      pageResult (idx.filter (afterQueryKey k)) limit itemQueryKey
    else Except.error "ValidationException: the provided starting key is invalid"
  | none => pageResult idx limit itemQueryKey

/-- Position for resuming a Scan strictly after the continuation key, in
the backend-defined traversal order. -/
def afterScanKey (k : KeyMap) (t : Table) : Table :=
  match t.findIdx? (fun it => it.image_id = keyId k) with
  | some i => t.drop (i + 1)
  | none => []

/-- `DynamoDBService.scan_all`: unfiltered Scan with `Limit` and optional
`ExclusiveStartKey`; no ordering guarantee beyond the backend traversal
order. -/
def scan_all (t : Table) (limit : Nat) (lek : Option KeyMap) :
    Except String (List ImageMetadata × Option KeyMap) :=
  match lek with
  | some k =>
    if validStartKey scanKeyNames k then
      pageResult (afterScanKey k t) limit (fun it => [("image_id", it.image_id)])
    else Except.error "ValidationException: the provided starting key is invalid"
  | none => pageResult t limit (fun it => [("image_id", it.image_id)])

/-- Error taxonomy of `utils.api_response`: kinds with their HTTP status. -/
inductive ErrorKind
  | validation
  | notFound
  | unauthorized
  | internal
  | throttle
deriving DecidableEq, Repr

/-- HTTP status code attached by the response helpers. -/
def ErrorKind.status : ErrorKind → Nat
  | validation => 400
  | notFound => 404
  | unauthorized => 401
  | internal => 500
  | throttle => 429

/-- The `error` field of the response body. -/
def ErrorKind.label : ErrorKind → String
  | validation => "ValidationError"
  | notFound => "NotFound"
  | unauthorized => "Unauthorized"
  | internal => "InternalError"
  | throttle => "ThrottleError"

/-- Status code of a handler result (200 on success, the kind's code on
error), the mapping `create_response` applies. -/
def apiStatus {α : Type} : Except (ErrorKind × String) α → Nat
  | Except.ok _ => 200
  | Except.error (k, _) => k.status

/-- Error message of a handler result, when it is an error. -/
def apiErrorMessage {α : Type} : Except (ErrorKind × String) α → Option String
  | Except.ok _ => none
  | Except.error (_, m) => some m

/-- Parsed body of `POST /images/upload-url`
(`UploadPresignedUrlRequest`). -/
structure UploadRequestBody where
  user_id : String
  filename : String
  content_type : String
  file_size : Int
  tags : Option (List String)
  description : Option String
deriving DecidableEq, Repr

/-- Pydantic validation of `UploadPresignedUrlRequest`: non-empty strings,
`0 < file_size ≤ 10_485_760`, whitelisted content type, description at most
500 characters. -/
def validUploadRequest (r : UploadRequestBody) : Bool :=
  decide (1 ≤ r.user_id.length) && decide (1 ≤ r.filename.length) &&
    decide (1 ≤ r.content_type.length) &&
    decide (0 < r.file_size) && decide (r.file_size ≤ 10485760) &&
    decide (r.content_type ∈ allowedContentTypes) &&
    (match r.description with
     | none => true
     | some d => decide (d.length ≤ 500))

/-- Parsed body of `POST /images/complete` (`CompleteUploadRequest`). -/
structure CompleteRequestBody where
  image_id : String
  user_id : String
  filename : String
  content_type : String
  file_size : Int
  tags : Option (List String)
  description : Option String
deriving DecidableEq, Repr

/-- Pydantic validation of `CompleteUploadRequest`: like the upload request
but with no upper bound on `file_size`. -/
def validCompleteRequest (r : CompleteRequestBody) : Bool :=
  decide (1 ≤ r.image_id.length) && decide (1 ≤ r.user_id.length) &&
    decide (1 ≤ r.filename.length) && decide (1 ≤ r.content_type.length) &&
    decide (0 < r.file_size) &&
    decide (r.content_type ∈ allowedContentTypes) &&
    (match r.description with
     | none => true
     | some d => decide (d.length ≤ 500))

/-- Query parameters of `GET /images` as the handler assembles them
(`limit` already converted with `int(...)`). -/
structure ListRequestParams where
  user_id : Option String
  start_date : Option String
  end_date : Option String
  limit : Int
  next_token : Option String
deriving DecidableEq, Repr

/-- The `validate_date` pydantic validator: a falsy value passes, otherwise
`datetime.fromisoformat` (modelled by the `isoOk` parameter) must accept
it. -/
def dateOk (isoOk : String → Bool) : Option String → Bool
  | none => true
  | some d => if d.isEmpty then true else isoOk d

/-- Pydantic validation of `ListImagesRequest`: optional ISO dates and
`1 ≤ limit ≤ 100`. -/
def validListRequest (isoOk : String → Bool) (p : ListRequestParams) : Bool :=
  dateOk isoOk p.start_date && dateOk isoOk p.end_date &&
    decide (1 ≤ p.limit) && decide (p.limit ≤ 100)

/-- Success body of the upload-credential flow (the delegated-credential
fields produced by the S3 adapter are opaque external data and are not
modelled; the fields below are the ones computed by the handler itself). -/
structure UploadOk where
  image_id : String
  s3_key : String
  expires_in : Nat
deriving DecidableEq, Repr

/-- Storage key derived at credential issuance
(`upload_presigned_url.handler`): the filename is sanitized first. -/
def upload_s3_key (user_id image_id filename : String) : String :=
  "images/" ++ user_id ++ "/" ++ image_id ++ "_" ++ sanitize_filename filename

/-- Storage key derived at completion (`complete_upload.handler`): the
request filename is used as-is. -/
def complete_s3_key (user_id image_id filename : String) : String :=
  "images/" ++ user_id ++ "/" ++ image_id ++ "_" ++ filename

/-- `upload_presigned_url.handler`: validate, generate the key from the
sanitized filename, request a presigned POST scoped to it, and answer;
no record is written (the module does not touch the table). -/
def upload_presigned_url (t : Table) (r : UploadRequestBody) (image_id : String) :
    Except (ErrorKind × String) UploadOk × Table :=
  if validUploadRequest r then
    (Except.ok { image_id := image_id,
                 s3_key := upload_s3_key r.user_id image_id r.filename,
                 expires_in := 3600 }, t)
  else (Except.error (ErrorKind.validation, "Invalid request data"), t)

/-- Success body of the complete-upload flow. -/
structure CompleteOk where
  image_id : String
  status : String
  message : String
deriving DecidableEq, Repr

/-- The `ImageMetadata(...)` construction in `complete_upload.handler`
after the S3-reported content type and size replaced the declared ones;
pydantic validation may fail (whitelist, positivity), which the outer catch
turns into a 500. -/
def buildCompletedMetadata (r : CompleteRequestBody) (s3_key : String)
    (ct : Option String) (fs : Option Int) (now : String) :
    Option ImageMetadata := do
  let ct ← ct
  if ct ∈ allowedContentTypes then
    let fs ← fs
    if 0 < fs then
      some { image_id := r.image_id, user_id := r.user_id,
             filename := r.filename, content_type := ct, file_size := fs,
             upload_timestamp := now, tags := r.tags,
             description := r.description, status := ImageStatus.completed,
             s3_key := s3_key }
    else none
  else none

/-- `complete_upload.handler`: validate, derive the key from the raw
filename, verify the object exists (404 otherwise), prefer the S3-reported
content type and size, build the completed record and `put` it.  `putErr`
injects a backend fault in `put_item`; the outer catch renders it as a 500
whose message embeds the exception text. -/
def complete_upload (t : Table) (s3 : S3State) (r : CompleteRequestBody)
    (now : String) (putErr : Option String) :
    Except (ErrorKind × String) CompleteOk × Table :=
  if validCompleteRequest r then
    let s3_key := complete_s3_key r.user_id r.image_id r.filename
    if check_object_exists s3 s3_key then
      let meta := (get_object_metadata s3 s3_key).getD ⟨none, none⟩
      match buildCompletedMetadata r s3_key meta.content_type meta.content_length now with
      | none =>
        (Except.error (ErrorKind.internal,
          "Failed to complete upload: pydantic validation error"), t)
      | some m =>
        match putErr with
        | some e =>
          (Except.error (ErrorKind.internal, "Failed to complete upload: " ++ e), t)
        | none =>
          (Except.ok { image_id := r.image_id, status := "completed",
                       message := "Image upload completed successfully" },
           put_item t m now)
    else
      (Except.error (ErrorKind.notFound,
        "Image not uploaded to S3. Please upload the file first."), t)
  else (Except.error (ErrorKind.validation, "Invalid request data"), t)

/-- Success body of the list flow. -/
structure ListOk where
  images : List ImageMetadata
  count : Nat
  next_token : Option String
  has_more : Bool
deriving DecidableEq, Repr

/-- The `if next_key:` encoding step of `list_images.handler`: a truthy
(present and non-empty) backend continuation key becomes a token. -/
def encodeNextToken (nk : Option KeyMap) : Option String :=
  match nk with
  | some k => if k.isEmpty then none else some (encodeToken k)
  | none => none

/-- The `has_more = next_key is not None` step of `list_images.handler`. -/
def hasMoreOf (nk : Option KeyMap) : Bool := nk.isSome

/-- `list_images.handler`: validate, decode the pagination token (any
decoding failure is a 400), dispatch on the truthiness of `user_id` to the
indexed query or the unfiltered scan, and encode the returned continuation
key.  Backend errors reach the outer catch and are rendered as a 500 whose
message embeds the exception text. -/
def list_images (isoOk : String → Bool) (t : Table) (p : ListRequestParams) :
    Except (ErrorKind × String) ListOk :=
  if validListRequest isoOk p then
    match (match optTruthy p.next_token with
           | some tok =>
             match decodeToken tok with
             | some k => Except.ok (some k)
             | none =>
               Except.error (ErrorKind.validation, "Invalid pagination token")
           | none => Except.ok none :
           Except (ErrorKind × String) (Option KeyMap)) with
    | Except.error e => Except.error e
    | Except.ok lek =>
      match (match optTruthy p.user_id with
             | some u => query_by_user t u p.start_date p.end_date p.limit.toNat lek
             | none => scan_all t p.limit.toNat lek) with
      | Except.error msg =>
        Except.error (ErrorKind.internal, "Failed to list images: " ++ msg)
      | Except.ok (images, next_key) =>
        Except.ok { images := images, count := images.length,
                    next_token := encodeNextToken next_key,
                    has_more := hasMoreOf next_key }
  else Except.error (ErrorKind.validation, "Invalid request parameters")

/-- Success body of the delete flow. -/
structure DeleteOk where
  image_id : String
  status : String
  message : String
deriving DecidableEq, Repr

/-- `delete_image.handler`: missing path or body identity is a 400; absent
record a 404; an owner mismatch a 401 leaving everything untouched; for the
owner, S3 deletion is attempted and its failure (injected through
`s3DeleteFails`) is logged and swallowed, after which the record is deleted
unconditionally and success returned. -/
def delete_image (t : Table) (s3 : S3State) (path_image_id : Option String)
    (body_user_id : Option String) (s3DeleteFails : Bool) :
    Except (ErrorKind × String) DeleteOk × Table × S3State :=
  match optTruthy path_image_id with
  | none => (Except.error (ErrorKind.validation, "Missing image_id in path"), t, s3)
  | some image_id =>
    match optTruthy body_user_id with
    | none =>
      (Except.error (ErrorKind.validation, "Missing user_id in request body"), t, s3)
    | some user_id =>
      match get_item t image_id with
      | Except.error e =>
        (Except.error (ErrorKind.internal, "Failed to delete image: " ++ e), t, s3)
      | Except.ok none =>
        (Except.error (ErrorKind.notFound, "Image not found: " ++ image_id), t, s3)
      | Except.ok (some metadata) =>
        if metadata.user_id = user_id then
          let s3' := if s3DeleteFails then s3 else s3_delete_object s3 metadata.s3_key
          (Except.ok { image_id := image_id, status := "deleted",
                       message := "Image deleted successfully" },
           delete_item t image_id, s3')
        else
          (Except.error (ErrorKind.unauthorized,
            "You don't have permission to delete this image"), t, s3)

theorem mapMetadata_mem {l : List Item} {ms : List ImageMetadata}
    (h : mapMetadata l = some ms) :
    ∀ m ∈ ms, ∃ it ∈ l, itemToMetadata it = some m := by
  induction l generalizing ms with
  | nil =>
    simp only [mapMetadata] at h
    cases h
    simp
  | cons it rest ih =>
    simp only [mapMetadata, Option.bind_eq_bind] at h
    cases hm : itemToMetadata it with
    | none => rw [hm] at h; simp at h
    | some m0 =>
      rw [hm] at h
      simp only [Option.some_bind] at h
      cases hrest : mapMetadata rest with
      | none => rw [hrest] at h; simp at h
      | some ms0 =>
        rw [hrest] at h
        simp only [Option.some_bind] at h
        cases h
        intro m hmem
        rcases List.mem_cons.mp hmem with rfl | hmem2
        · exact ⟨it, by simp, hm⟩
        · obtain ⟨it2, hit2, heq⟩ := ih hrest m hmem2
          exact ⟨it2, by simp [hit2], heq⟩

theorem mapMetadata_pairwise {R : Item → Item → Prop}
    {S : ImageMetadata → ImageMetadata → Prop} {l : List Item}
    {ms : List ImageMetadata}
    (hRS : ∀ a b a' b', itemToMetadata a = some a' → itemToMetadata b = some b' →
      R a b → S a' b')
    (h : mapMetadata l = some ms) (hp : l.Pairwise R) : ms.Pairwise S := by
  induction l generalizing ms with
  | nil =>
    simp only [mapMetadata] at h
    cases h
    exact List.Pairwise.nil
  | cons it rest ih =>
    simp only [mapMetadata, Option.bind_eq_bind] at h
    cases hm : itemToMetadata it with
    | none => rw [hm] at h; simp at h
    | some m0 =>
      rw [hm] at h
      simp only [Option.some_bind] at h
      cases hrest : mapMetadata rest with
      | none => rw [hrest] at h; simp at h
      | some ms0 =>
        rw [hrest] at h
        simp only [Option.some_bind] at h
        cases h
        rcases List.pairwise_cons.mp hp with ⟨hhead, htail⟩
        refine List.pairwise_cons.mpr ⟨?_, ih hrest htail⟩
        intro m' hm'
        obtain ⟨it2, hit2, heq⟩ := mapMetadata_mem hrest m' hm'
        exact hRS it it2 m0 m' hm heq (hhead it2 hit2)

theorem itemToMetadata_fields {it : Item} {m : ImageMetadata}
    (h : itemToMetadata it = some m) :
    it.user_id = some m.user_id ∧ it.upload_timestamp = some m.upload_timestamp := by
  unfold itemToMetadata at h
  cases hu : it.user_id with
  | none => rw [hu] at h; simp at h
  | some uid =>
    rw [hu] at h
    cases hf : it.filename with
    | none => rw [hf] at h; simp at h
    | some fn =>
      rw [hf] at h
      cases hc : it.content_type with
      | none => rw [hc] at h; simp at h
      | some ct =>
        rw [hc] at h
        simp only [Option.bind_eq_bind, Option.some_bind] at h
        by_cases hctw : ct ∈ allowedContentTypes
        · rw [if_pos hctw] at h
          cases hfs : it.file_size with
          | none => rw [hfs] at h; simp at h
          | some fs =>
            rw [hfs] at h
            simp only [Option.some_bind] at h
            by_cases hfsp : fs > 0
            · rw [if_pos hfsp] at h
              cases hts : it.upload_timestamp with
              | none => rw [hts] at h; simp at h
              | some ts =>
                rw [hts] at h
                cases hsk : it.s3_key with
                | none => rw [hsk] at h; simp at h
                | some sk =>
                  rw [hsk] at h
                  simp only [Option.some_bind] at h
                  cases hst : it.status with
                  | none =>
                    rw [hst] at h
                    simp only [Option.some_bind] at h
                    cases h
                    exact ⟨rfl, rfl⟩
                  | some st =>
                    rw [hst] at h
                    simp only [Option.some_bind] at h
                    cases hps : parseStatus st with
                    | none => rw [hps] at h; simp at h
                    | some s =>
                      rw [hps] at h
                      simp only [Option.some_bind] at h
                      cases h
                      exact ⟨rfl, rfl⟩
            · rw [if_neg hfsp] at h; simp at h
        · rw [if_neg hctw] at h; simp at h

theorem mem_allowed_length : ∀ s ∈ allowedContentTypes, 1 ≤ s.length := by decide

/-- C1: the issue-upload flow derives the storage key from the sanitized
filename while the complete-upload flow rebuilds it from the raw filename,
so the two keys differ for any filename the sanitizer changes; with the
object stored under the issued key, completion then reports NotFound. -/
theorem c1_complete_key_diverges_from_issued_key :
    upload_s3_key "u1" "id1" "my photo.jpg" = "images/u1/id1_my_photo.jpg" ∧
    complete_s3_key "u1" "id1" "my photo.jpg" = "images/u1/id1_my photo.jpg" ∧
    upload_s3_key "u1" "id1" "my photo.jpg" ≠
      complete_s3_key "u1" "id1" "my photo.jpg" ∧
    (complete_upload []
        [(upload_s3_key "u1" "id1" "my photo.jpg",
          { content_type := some "image/jpeg", content_length := some 5 })]
        { image_id := "id1", user_id := "u1", filename := "my photo.jpg",
          content_type := "image/jpeg", file_size := 5, tags := none,
          description := none }
        "2024-01-01T00:00:00" none).fst =
      Except.error (ErrorKind.notFound,
        "Image not uploaded to S3. Please upload the file first.") := by
  refine ⟨by decide, by decide, by decide, by rfl⟩

/-- C9: with the other fields well-formed, issue-upload validation accepts
exactly `1 ≤ file_size ≤ 10485760` together with a whitelisted content
type, and every rejection is rendered as a ValidationError with status
400. -/
theorem c9_upload_validation_boundaries (t : Table) (r : UploadRequestBody)
    (image_id : String)
    (hu : 1 ≤ r.user_id.length) (hf : 1 ≤ r.filename.length)
    (hd : (match r.description with
           | none => True
           | some d => d.length ≤ 500)) :
    (validUploadRequest r = true ↔
      (1 ≤ r.file_size ∧ r.file_size ≤ 10485760 ∧
        r.content_type ∈ allowedContentTypes)) ∧
    (validUploadRequest r = false →
      upload_presigned_url t r image_id =
        (Except.error (ErrorKind.validation, "Invalid request data"), t) ∧
      apiStatus (upload_presigned_url t r image_id).fst = 400) ∧
    ErrorKind.validation.label = "ValidationError" := by
  have hiff : validUploadRequest r = true ↔
      (1 ≤ r.file_size ∧ r.file_size ≤ 10485760 ∧
        r.content_type ∈ allowedContentTypes) := by
    cases hdesc : r.description with
    | none =>
      simp only [validUploadRequest, hdesc, Bool.and_eq_true, decide_eq_true_eq]
      constructor
      · rintro ⟨⟨⟨⟨⟨⟨_, _⟩, _⟩, h1⟩, h2⟩, h3⟩, _⟩
        exact ⟨h1, h2, h3⟩
      · rintro ⟨h1, h2, h3⟩
        exact ⟨⟨⟨⟨⟨⟨hu, hf⟩, mem_allowed_length _ h3⟩, h1⟩, h2⟩, h3⟩, trivial⟩
    | some d =>
      rw [hdesc] at hd
      simp only [validUploadRequest, hdesc, Bool.and_eq_true, decide_eq_true_eq]
      constructor
      · rintro ⟨⟨⟨⟨⟨⟨_, _⟩, _⟩, h1⟩, h2⟩, h3⟩, _⟩
        exact ⟨h1, h2, h3⟩
      · rintro ⟨h1, h2, h3⟩
        exact ⟨⟨⟨⟨⟨⟨hu, hf⟩, mem_allowed_length _ h3⟩, h1⟩, h2⟩, h3⟩, hd⟩
  refine ⟨hiff, ?_, rfl⟩
  intro hinv
  unfold upload_presigned_url
  rw [hinv]
  exact ⟨rfl, rfl⟩

/-- Witness for C9 at the accepted boundary `file_size = 10485760`. -/
theorem c9_upload_validation_boundaries_witness :
    (validUploadRequest
        { user_id := "u1", filename := "a.jpg", content_type := "image/png",
          file_size := 10485760, tags := none, description := none } = true ↔
      (1 ≤ (10485760 : Int) ∧ (10485760 : Int) ≤ 10485760 ∧
        "image/png" ∈ allowedContentTypes)) ∧
    (validUploadRequest
        { user_id := "u1", filename := "a.jpg", content_type := "image/png",
          file_size := 10485760, tags := none, description := none } = false →
      upload_presigned_url []
        { user_id := "u1", filename := "a.jpg", content_type := "image/png",
          file_size := 10485760, tags := none, description := none } "id1" =
        (Except.error (ErrorKind.validation, "Invalid request data"), []) ∧
      apiStatus (upload_presigned_url []
        { user_id := "u1", filename := "a.jpg", content_type := "image/png",
          file_size := 10485760, tags := none, description := none } "id1").fst
        = 400) ∧
    ErrorKind.validation.label = "ValidationError" :=
  c9_upload_validation_boundaries [] _ "id1" (by decide) (by decide) (by decide)

/-- C7 counterexample: on an empty table, `update_status` reports success
but does not leave the table unchanged — DynamoDB `UpdateItem` upserts a
new item holding only the key and the SET attributes. -/
theorem c7_update_status_upserts_counterexample :
    (update_status [] "img-1" "completed" "2024-01-01T00:00:00").snd = true ∧
    (update_status [] "img-1" "completed" "2024-01-01T00:00:00").fst ≠ [] ∧
    get_item_raw
        (update_status [] "img-1" "completed" "2024-01-01T00:00:00").fst
        "img-1" =
      some { image_id := "img-1", status := some "completed",
             updated_at := some "2024-01-01T00:00:00" } := by
  refine ⟨rfl, by decide, by decide⟩

/-- C7 amended: for an absent image_id, `update_status` reports success but
upserts a partial item (image_id, status, updated_at only) instead of
leaving the table unchanged. -/
theorem c7_update_status_absent_upserts (t : Table) (image_id status now : String)
    (h : get_item_raw t image_id = none) :
    update_status t image_id status now =
      ({ image_id := image_id, status := some status,
         updated_at := some now : Item } :: t, true) := by
  unfold update_status
  rw [h]

/-- Witness for the amended C7 on a concrete absent key. -/
theorem c7_update_status_absent_upserts_witness :
    update_status [] "img-1" "completed" "T0" =
      ({ image_id := "img-1", status := some "completed",
         updated_at := some "T0" : Item } :: [], true) :=
  c7_update_status_absent_upserts [] "img-1" "completed" "T0" (by decide)

/-- C8 counterexample: a backend fault in the commit `put` is rendered as a
500 whose message embeds the internal exception text verbatim after the
flow prefix, not as a generic message. -/
theorem c8_internal_error_exposes_backend_text :
    (complete_upload []
        [("images/u1/id1_a.jpg",
          { content_type := some "image/jpeg", content_length := some 5 })]
        { image_id := "id1", user_id := "u1", filename := "a.jpg",
          content_type := "image/jpeg", file_size := 5, tags := none,
          description := none }
        "T0" (some "secret backend failure")).fst =
      Except.error (ErrorKind.internal,
        "Failed to complete upload: " ++ "secret backend failure") ∧
    apiStatus (complete_upload []
        [("images/u1/id1_a.jpg",
          { content_type := some "image/jpeg", content_length := some 5 })]
        { image_id := "id1", user_id := "u1", filename := "a.jpg",
          content_type := "image/jpeg", file_size := 5, tags := none,
          description := none }
        "T0" (some "secret backend failure")).fst = 500 := by
  exact ⟨by rfl, by rfl⟩

/-- C8 amended: backend faults are reported as InternalError (500), but the
handlers append the caught exception text verbatim to a flow-specific
prefix instead of returning only a generic message. -/
theorem c8_internal_error_format (t : Table) (s3 : S3State)
    (r : CompleteRequestBody) (now e : String) (key ct : String) (fs : Int)
    (hv : validCompleteRequest r = true)
    (hkey : key = complete_s3_key r.user_id r.image_id r.filename)
    (hmeta : get_object_metadata s3 key =
      some { content_type := some ct, content_length := some fs })
    (hct : ct ∈ allowedContentTypes) (hfs : 0 < fs) :
    (complete_upload t s3 r now (some e)).fst =
      Except.error (ErrorKind.internal, "Failed to complete upload: " ++ e) ∧
    (complete_upload t s3 r now (some e)).snd = t ∧
    apiStatus (complete_upload t s3 r now (some e)).fst = 500 ∧
    ErrorKind.internal.label = "InternalError" := by
  subst hkey
  have hlk : List.lookup (complete_s3_key r.user_id r.image_id r.filename) s3 =
      some { content_type := some ct, content_length := some fs } := hmeta
  have hex : check_object_exists s3
      (complete_s3_key r.user_id r.image_id r.filename) = true := by
    unfold check_object_exists
    rw [hlk]
    rfl
  have hbuild : buildCompletedMetadata r
      (complete_s3_key r.user_id r.image_id r.filename)
      (some ct) (some fs) now ≠ none := by
    unfold buildCompletedMetadata
    simp [hct, hfs]
  unfold complete_upload
  rw [hv]
  simp only [if_pos rfl, hex, if_pos rfl]
  rw [show get_object_metadata s3
      (complete_s3_key r.user_id r.image_id r.filename) =
    some { content_type := some ct, content_length := some fs } from hmeta]
  simp only [Option.getD_some]
  cases hb : buildCompletedMetadata r
      (complete_s3_key r.user_id r.image_id r.filename)
      (some ct) (some fs) now with
  | none => exact absurd hb hbuild
  | some m => exact ⟨rfl, rfl, rfl, rfl⟩

/-- Witness for the amended C8 at a concrete faulting backend. -/
theorem c8_internal_error_format_witness :
    (complete_upload []
        [("images/u2/id2_b.png",
          { content_type := some "image/png", content_length := some 7 })]
        { image_id := "id2", user_id := "u2", filename := "b.png",
          content_type := "image/png", file_size := 7, tags := none,
          description := none }
        "T1" (some "boom")).fst =
      Except.error (ErrorKind.internal, "Failed to complete upload: " ++ "boom") ∧
    (complete_upload []
        [("images/u2/id2_b.png",
          { content_type := some "image/png", content_length := some 7 })]
        { image_id := "id2", user_id := "u2", filename := "b.png",
          content_type := "image/png", file_size := 7, tags := none,
          description := none }
        "T1" (some "boom")).snd = [] ∧
    apiStatus (complete_upload []
        [("images/u2/id2_b.png",
          { content_type := some "image/png", content_length := some 7 })]
        { image_id := "id2", user_id := "u2", filename := "b.png",
          content_type := "image/png", file_size := 7, tags := none,
          description := none }
        "T1" (some "boom")).fst = 500 ∧
    ErrorKind.internal.label = "InternalError" :=
  c8_internal_error_format [] _ _ "T1" "boom" _ "image/png" 7
    (by decide) rfl (by rfl) (by decide) (by decide)

theorem get_item_raw_put (t : Table) (m : ImageMetadata) (now : String) :
    get_item_raw (put_item t m now) m.image_id = some (metadataToItem m now) := by
  unfold get_item_raw put_item
  rw [List.find?_cons_of_pos]
  simp [metadataToItem]

theorem get_item_raw_delete (t : Table) (image_id : String) :
    get_item_raw (delete_item t image_id) image_id = none := by
  unfold get_item_raw delete_item
  rw [List.find?_eq_none]
  intro x hx
  have hne := (List.mem_filter.mp hx).2
  simp only [ne_eq, decide_not, Bool.not_eq_eq_eq_not, Bool.not_true,
    decide_eq_false_iff_not] at hne
  simp [hne]

theorem buildCompletedMetadata_fields {r : CompleteRequestBody} {key : String}
    {ct : Option String} {fs : Option Int} {now : String} {m : ImageMetadata}
    (h : buildCompletedMetadata r key ct fs now = some m) :
    m.image_id = r.image_id ∧ m.status = ImageStatus.completed := by
  unfold buildCompletedMetadata at h
  cases ct with
  | none => simp at h
  | some c =>
    simp only [Option.bind_eq_bind, Option.some_bind] at h
    by_cases hc : c ∈ allowedContentTypes
    · rw [if_pos hc] at h
      cases fs with
      | none => simp at h
      | some f =>
        simp only [Option.some_bind] at h
        by_cases hf : 0 < f
        · rw [if_pos hf] at h
          cases h
          exact ⟨rfl, rfl⟩
        · rw [if_neg hf] at h; simp at h
    · rw [if_neg hc] at h; simp at h

theorem optTruthy_some_of_ne {s : String} (h : s ≠ "") :
    optTruthy (some s) = some s := by
  simp [optTruthy, String.isEmpty_iff, h]

/-- C2: the two-phase protocol.  Issuing a credential writes nothing, so a
fresh image_id stays absent; completing with the object present at the
derived key commits a record with that image_id and status "completed";
completing with the object absent reports NotFound and writes nothing. -/
theorem c2_two_phase_upload_protocol :
    (∀ (t : Table) (r : UploadRequestBody) (image_id : String),
      (upload_presigned_url t r image_id).snd = t ∧
      (get_item_raw t image_id = none →
        get_item_raw (upload_presigned_url t r image_id).snd image_id = none)) ∧
    (∀ (t : Table) (s3 : S3State) (r : CompleteRequestBody) (now ct : String)
        (fs : Int),
      validCompleteRequest r = true →
      get_object_metadata s3 (complete_s3_key r.user_id r.image_id r.filename) =
        some { content_type := some ct, content_length := some fs } →
      ct ∈ allowedContentTypes → 0 < fs →
      (complete_upload t s3 r now none).fst =
        Except.ok { image_id := r.image_id, status := "completed",
                    message := "Image upload completed successfully" } ∧
      (∃ it, get_item_raw (complete_upload t s3 r now none).snd r.image_id =
          some it ∧ it.image_id = r.image_id ∧ it.status = some "completed") ∧
      apiStatus (complete_upload t s3 r now none).fst = 200) ∧
    (∀ (t : Table) (s3 : S3State) (r : CompleteRequestBody) (now : String)
        (putErr : Option String),
      validCompleteRequest r = true →
      check_object_exists s3
        (complete_s3_key r.user_id r.image_id r.filename) = false →
      (complete_upload t s3 r now putErr).fst =
        Except.error (ErrorKind.notFound,
          "Image not uploaded to S3. Please upload the file first.") ∧
      (complete_upload t s3 r now putErr).snd = t ∧
      apiStatus (complete_upload t s3 r now putErr).fst = 404) := by
  refine ⟨?_, ?_, ?_⟩
  · intro t r image_id
    refine ⟨?_, ?_⟩
    · unfold upload_presigned_url
      by_cases hv : validUploadRequest r = true
      · rw [hv]; rfl
      · rw [Bool.not_eq_true] at hv
        rw [hv]; rfl
    · intro h
      unfold upload_presigned_url
      by_cases hv : validUploadRequest r = true
      · rw [hv]; exact h
      · rw [Bool.not_eq_true] at hv
        rw [hv]; exact h
  · intro t s3 r now ct fs hv hmeta hct hfs
    have hlk : List.lookup (complete_s3_key r.user_id r.image_id r.filename) s3 =
        some { content_type := some ct, content_length := some fs } := hmeta
    have hex : check_object_exists s3
        (complete_s3_key r.user_id r.image_id r.filename) = true := by
      unfold check_object_exists
      rw [hlk]
      rfl
    have hbuild : buildCompletedMetadata r
        (complete_s3_key r.user_id r.image_id r.filename)
        (some ct) (some fs) now ≠ none := by
      unfold buildCompletedMetadata
      simp [hct, hfs]
    unfold complete_upload
    rw [hv]
    simp only [if_pos rfl, hex, if_pos rfl]
    rw [show get_object_metadata s3
        (complete_s3_key r.user_id r.image_id r.filename) =
      some { content_type := some ct, content_length := some fs } from hmeta]
    simp only [Option.getD_some]
    cases hb : buildCompletedMetadata r
        (complete_s3_key r.user_id r.image_id r.filename)
        (some ct) (some fs) now with
    | none => exact absurd hb hbuild
    | some m =>
      obtain ⟨hmid, hmst⟩ := buildCompletedMetadata_fields hb
      refine ⟨rfl, ⟨metadataToItem m now, ?_, ?_, ?_⟩, rfl⟩
      · rw [← hmid]
        exact get_item_raw_put t m now
      · simp [metadataToItem, hmid]
      · simp [metadataToItem, hmst, ImageStatus.value]
  · intro t s3 r now putErr hv habs
    unfold complete_upload
    rw [hv]
    simp only [if_pos rfl, habs]
    exact ⟨rfl, rfl, rfl⟩

/-- Witness for C2 at concrete states: a fresh issue leaves the table
empty, completion with the object present commits, completion with it
absent 404s. -/
theorem c2_two_phase_upload_protocol_witness :
    ((upload_presigned_url []
        { user_id := "u1", filename := "a.jpg", content_type := "image/jpeg",
          file_size := 5, tags := none, description := none } "id1").snd = [] ∧
      (get_item_raw [] "id1" = none →
        get_item_raw (upload_presigned_url []
          { user_id := "u1", filename := "a.jpg", content_type := "image/jpeg",
            file_size := 5, tags := none, description := none } "id1").snd
          "id1" = none)) ∧
    ((complete_upload []
        [("images/u1/id1_a.jpg",
          { content_type := some "image/jpeg", content_length := some 5 })]
        { image_id := "id1", user_id := "u1", filename := "a.jpg",
          content_type := "image/jpeg", file_size := 5, tags := none,
          description := none } "T0" none).fst =
      Except.ok { image_id := "id1", status := "completed",
                  message := "Image upload completed successfully" } ∧
      (∃ it, get_item_raw (complete_upload []
          [("images/u1/id1_a.jpg",
            { content_type := some "image/jpeg", content_length := some 5 })]
          { image_id := "id1", user_id := "u1", filename := "a.jpg",
            content_type := "image/jpeg", file_size := 5, tags := none,
            description := none } "T0" none).snd "id1" =
          some it ∧ it.image_id = "id1" ∧ it.status = some "completed") ∧
      apiStatus (complete_upload []
          [("images/u1/id1_a.jpg",
            { content_type := some "image/jpeg", content_length := some 5 })]
          { image_id := "id1", user_id := "u1", filename := "a.jpg",
            content_type := "image/jpeg", file_size := 5, tags := none,
            description := none } "T0" none).fst = 200) ∧
    ((complete_upload [] []
        { image_id := "id1", user_id := "u1", filename := "a.jpg",
          content_type := "image/jpeg", file_size := 5, tags := none,
          description := none } "T0" none).fst =
      Except.error (ErrorKind.notFound,
        "Image not uploaded to S3. Please upload the file first.") ∧
      (complete_upload [] []
        { image_id := "id1", user_id := "u1", filename := "a.jpg",
          content_type := "image/jpeg", file_size := 5, tags := none,
          description := none } "T0" none).snd = [] ∧
      apiStatus (complete_upload [] []
        { image_id := "id1", user_id := "u1", filename := "a.jpg",
          content_type := "image/jpeg", file_size := 5, tags := none,
          description := none } "T0" none).fst = 404) :=
  ⟨c2_two_phase_upload_protocol.1 [] _ "id1",
   c2_two_phase_upload_protocol.2.1 [] _ _ "T0" "image/jpeg" 5
     (by decide) (by rfl) (by decide) (by decide),
   c2_two_phase_upload_protocol.2.2 [] [] _ "T0" none (by decide) (by rfl)⟩

/-- C6: delete authorization.  A non-owner gets Unauthorized (401) with the
record and the object store untouched; the owner gets success (200) with
the record unconditionally removed, even when the object-store deletion
fails (the failure is swallowed and the object left behind). -/
theorem c6_delete_owner_authorization (t : Table) (s3 : S3State)
    (image_id user_id : String) (m : ImageMetadata) (fails : Bool)
    (hid : image_id ≠ "") (huid : user_id ≠ "")
    (hg : get_item t image_id = Except.ok (some m)) :
    (m.user_id ≠ user_id →
      delete_image t s3 (some image_id) (some user_id) fails =
        (Except.error (ErrorKind.unauthorized,
          "You don't have permission to delete this image"), t, s3) ∧
      apiStatus (delete_image t s3 (some image_id) (some user_id) fails).fst
        = 401) ∧
    (m.user_id = user_id →
      (delete_image t s3 (some image_id) (some user_id) fails).fst =
        Except.ok { image_id := image_id, status := "deleted",
                    message := "Image deleted successfully" } ∧
      get_item_raw (delete_image t s3 (some image_id) (some user_id) fails).snd.fst
        image_id = none ∧
      (fails = true →
        (delete_image t s3 (some image_id) (some user_id) fails).snd.snd = s3) ∧
      apiStatus (delete_image t s3 (some image_id) (some user_id) fails).fst
        = 200) := by
  have hun : delete_image t s3 (some image_id) (some user_id) fails =
      (if m.user_id = user_id then
        (Except.ok { image_id := image_id, status := "deleted",
                     message := "Image deleted successfully" },
         delete_item t image_id,
         if fails then s3 else s3_delete_object s3 m.s3_key)
       else
        (Except.error (ErrorKind.unauthorized,
          "You don't have permission to delete this image"), t, s3)) := by
    unfold delete_image
    rw [optTruthy_some_of_ne hid, optTruthy_some_of_ne huid]
    simp only []
    rw [hg]
  constructor
  · intro howner
    rw [hun, if_neg howner]
    exact ⟨rfl, rfl⟩
  · intro howner
    rw [hun, if_pos howner]
    refine ⟨rfl, get_item_raw_delete t image_id, ?_, rfl⟩
    intro hf
    subst hf
    rfl

/-- Witness for C6: a concrete record owned by "owner", a denied delete by
"intruder" and a successful delete by the owner with the S3 deletion
failing. -/
theorem c6_delete_owner_authorization_witness :
    (({ image_id := "id1", user_id := "owner", filename := "a.jpg",
        content_type := "image/jpeg", file_size := 5,
        upload_timestamp := "T0", tags := none, description := none,
        status := ImageStatus.completed, s3_key := "images/owner/id1_a.jpg"
        : ImageMetadata }).user_id ≠ "intruder" →
      delete_image
        [metadataToItem
          { image_id := "id1", user_id := "owner", filename := "a.jpg",
            content_type := "image/jpeg", file_size := 5,
            upload_timestamp := "T0", tags := none, description := none,
            status := ImageStatus.completed,
            s3_key := "images/owner/id1_a.jpg" } "T0"]
        [("images/owner/id1_a.jpg",
          { content_type := some "image/jpeg", content_length := some 5 })]
        (some "id1") (some "intruder") true =
        (Except.error (ErrorKind.unauthorized,
          "You don't have permission to delete this image"),
         [metadataToItem
          { image_id := "id1", user_id := "owner", filename := "a.jpg",
            content_type := "image/jpeg", file_size := 5,
            upload_timestamp := "T0", tags := none, description := none,
            status := ImageStatus.completed,
            s3_key := "images/owner/id1_a.jpg" } "T0"],
         [("images/owner/id1_a.jpg",
           { content_type := some "image/jpeg", content_length := some 5 })]) ∧
      apiStatus (delete_image
        [metadataToItem
          { image_id := "id1", user_id := "owner", filename := "a.jpg",
            content_type := "image/jpeg", file_size := 5,
            upload_timestamp := "T0", tags := none, description := none,
            status := ImageStatus.completed,
            s3_key := "images/owner/id1_a.jpg" } "T0"]
        [("images/owner/id1_a.jpg",
          { content_type := some "image/jpeg", content_length := some 5 })]
        (some "id1") (some "intruder") true).fst = 401) ∧
    (({ image_id := "id1", user_id := "owner", filename := "a.jpg",
        content_type := "image/jpeg", file_size := 5,
        upload_timestamp := "T0", tags := none, description := none,
        status := ImageStatus.completed, s3_key := "images/owner/id1_a.jpg"
        : ImageMetadata }).user_id = "intruder" →
      (delete_image
        [metadataToItem
          { image_id := "id1", user_id := "owner", filename := "a.jpg",
            content_type := "image/jpeg", file_size := 5,
            upload_timestamp := "T0", tags := none, description := none,
            status := ImageStatus.completed,
            s3_key := "images/owner/id1_a.jpg" } "T0"]
        [("images/owner/id1_a.jpg",
          { content_type := some "image/jpeg", content_length := some 5 })]
        (some "id1") (some "intruder") true).fst =
        Except.ok { image_id := "id1", status := "deleted",
                    message := "Image deleted successfully" } ∧
      get_item_raw (delete_image
        [metadataToItem
          { image_id := "id1", user_id := "owner", filename := "a.jpg",
            content_type := "image/jpeg", file_size := 5,
            upload_timestamp := "T0", tags := none, description := none,
            status := ImageStatus.completed,
            s3_key := "images/owner/id1_a.jpg" } "T0"]
        [("images/owner/id1_a.jpg",
          { content_type := some "image/jpeg", content_length := some 5 })]
        (some "id1") (some "intruder") true).snd.fst "id1" = none ∧
      (true = true →
        (delete_image
          [metadataToItem
            { image_id := "id1", user_id := "owner", filename := "a.jpg",
              content_type := "image/jpeg", file_size := 5,
              upload_timestamp := "T0", tags := none, description := none,
              status := ImageStatus.completed,
              s3_key := "images/owner/id1_a.jpg" } "T0"]
          [("images/owner/id1_a.jpg",
            { content_type := some "image/jpeg", content_length := some 5 })]
          (some "id1") (some "intruder") true).snd.snd =
          [("images/owner/id1_a.jpg",
            { content_type := some "image/jpeg", content_length := some 5 })]) ∧
      apiStatus (delete_image
        [metadataToItem
          { image_id := "id1", user_id := "owner", filename := "a.jpg",
            content_type := "image/jpeg", file_size := 5,
            upload_timestamp := "T0", tags := none, description := none,
            status := ImageStatus.completed,
            s3_key := "images/owner/id1_a.jpg" } "T0"]
        [("images/owner/id1_a.jpg",
          { content_type := some "image/jpeg", content_length := some 5 })]
        (some "id1") (some "intruder") true).fst = 200) :=
  c6_delete_owner_authorization _ _ "id1" "intruder" _ true
    (by decide) (by decide) (by rfl)

theorem itemTs_of_meta {it : Item} {m : ImageMetadata}
    (h : itemToMetadata it = some m) : itemTs it = m.upload_timestamp := by
  have := (itemToMetadata_fields h).2
  simp [itemTs, this]


theorem pageResult_ok_map {resumed : List Item} {limit : Nat}
    {mkKey : Item → KeyMap} {ms : List ImageMetadata} {nk : Option KeyMap}
    (h : pageResult resumed limit mkKey = Except.ok (ms, nk)) :
    mapMetadata (resumed.take limit) = some ms := by
  unfold pageResult at h
  split at h
  case h_1 ms' hms =>
    injection h with h1
    injection h1 with h2 _
    rwa [h2] at hms
  case h_2 => simp at h

theorem pageResult_ok_nk {resumed : List Item} {limit : Nat}
    {mkKey : Item → KeyMap} {ms : List ImageMetadata} {nk : Option KeyMap}
    (h : pageResult resumed limit mkKey = Except.ok (ms, nk)) :
    nk = none ∨ ∃ it, nk = some (mkKey it) := by
  unfold pageResult at h
  split at h
  case h_1 ms' hms =>
    injection h with h1
    injection h1 with _ h3
    by_cases hlen : (resumed.take limit).length < resumed.length
    · rw [if_pos hlen] at h3
      cases hlast : (resumed.take limit).getLast? with
      | none => rw [hlast] at h3; exact Or.inl h3.symm
      | some it => rw [hlast] at h3; exact Or.inr ⟨it, h3.symm⟩
    · rw [if_neg hlen] at h3
      exact Or.inl h3.symm
  case h_2 => simp at h

/-- C5: every successful owner query returns only records of that owner
whose timestamp satisfies the requested bounds — the closed interval when
both bounds are given, the open-ended halves when one is — and every page
is sorted by timestamp descending. -/
theorem c5_query_by_owner_filter_and_order (t : Table) (u : String)
    (sd ed : Option String) (limit : Nat) (lek : Option KeyMap)
    (ms : List ImageMetadata) (nk : Option KeyMap)
    (h : query_by_user t u sd ed limit lek = Except.ok (ms, nk)) :
    (∀ m ∈ ms, m.user_id = u ∧ tsInRange sd ed m.upload_timestamp = true) ∧
    (∀ s e, optTruthy sd = some s → optTruthy ed = some e →
      ∀ m ∈ ms, strLe s m.upload_timestamp = true ∧
        strLe m.upload_timestamp e = true) ∧
    (∀ s, optTruthy sd = some s → optTruthy ed = none →
      ∀ m ∈ ms, strLe s m.upload_timestamp = true) ∧
    (∀ e, optTruthy sd = none → optTruthy ed = some e →
      ∀ m ∈ ms, strLe m.upload_timestamp e = true) ∧
    List.Pairwise
      (fun a b => strLe b.upload_timestamp a.upload_timestamp = true) ms := by
  have key : ∃ resumed,
      List.Sublist resumed
        (List.insertionSort tsDescRel (t.filter (gsiMatch u sd ed))) ∧
      mapMetadata (resumed.take limit) = some ms := by
    unfold query_by_user at h
    cases lek with
    | none => exact ⟨_, List.Sublist.refl _, pageResult_ok_map h⟩
    | some k =>
      simp only [] at h
      split at h
      · exact ⟨_, List.filter_sublist _, pageResult_ok_map h⟩
      · simp at h
  obtain ⟨resumed, hsub, hms⟩ := key
  have hpage_sub : List.Sublist (resumed.take limit)
      (List.insertionSort tsDescRel (t.filter (gsiMatch u sd ed))) :=
    List.Sublist.trans (List.take_sublist limit resumed) hsub
  have hpage_gsi : ∀ it ∈ resumed.take limit, gsiMatch u sd ed it = true := by
    intro it hit
    have h2 := hpage_sub.subset hit
    have h3 := ((List.perm_insertionSort tsDescRel _).mem_iff).mp h2
    exact (List.mem_filter.mp h3).2
  have hmain : ∀ m ∈ ms,
      m.user_id = u ∧ tsInRange sd ed m.upload_timestamp = true := by
    intro m hm
    obtain ⟨it, hit, hparse⟩ := mapMetadata_mem hms m hm
    obtain ⟨huid, hts⟩ := itemToMetadata_fields hparse
    have hg := hpage_gsi it hit
    unfold gsiMatch at hg
    rw [huid, hts] at hg
    simp only [Bool.and_eq_true, decide_eq_true_eq] at hg
    exact hg
  refine ⟨hmain, ?_, ?_, ?_, ?_⟩
  · intro s e hs he m hm
    have hr := (hmain m hm).2
    unfold tsInRange at hr
    rw [hs, he] at hr
    simpa [Bool.and_eq_true] using hr
  · intro s hs he m hm
    have hr := (hmain m hm).2
    unfold tsInRange at hr
    rw [hs, he] at hr
    exact hr
  · intro e hs he m hm
    have hr := (hmain m hm).2
    unfold tsInRange at hr
    rw [hs, he] at hr
    exact hr
  · have hsorted : (List.insertionSort tsDescRel
        (t.filter (gsiMatch u sd ed))).Pairwise tsDescRel :=
      List.sorted_insertionSort tsDescRel _
    have hpage_sorted : (resumed.take limit).Pairwise tsDescRel :=
      hsorted.sublist hpage_sub
    exact mapMetadata_pairwise
      (fun a b a' b' ha hb hr => by
        unfold tsDescRel at hr
        rwa [itemTs_of_meta ha, itemTs_of_meta hb] at hr)
      hms hpage_sorted

/-- C10: when no owner filter is supplied, the list response does not
depend on the supplied date bounds — the unfiltered scan path never reads
them — so two requests differing only in valid (or absent) bounds get
identical responses. -/
theorem c10_scan_path_ignores_date_bounds (isoOk : String → Bool) (t : Table)
    (p : ListRequestParams) (sd1 ed1 sd2 ed2 : Option String)
    (hu : optTruthy p.user_id = none)
    (h1 : dateOk isoOk sd1 = true) (h2 : dateOk isoOk ed1 = true)
    (h3 : dateOk isoOk sd2 = true) (h4 : dateOk isoOk ed2 = true) :
    list_images isoOk t { p with start_date := sd1, end_date := ed1 } =
      list_images isoOk t { p with start_date := sd2, end_date := ed2 } := by
  have hval : validListRequest isoOk { p with start_date := sd1, end_date := ed1 } =
      validListRequest isoOk { p with start_date := sd2, end_date := ed2 } := by
    simp [validListRequest, h1, h2, h3, h4]
  unfold list_images
  by_cases hv : validListRequest isoOk
      { p with start_date := sd1, end_date := ed1 } = true
  · have hv2 : validListRequest isoOk
        { p with start_date := sd2, end_date := ed2 } = true := by
      rw [← hval]; exact hv
    rw [hv, hv2]
    simp only [hu]
  · rw [Bool.not_eq_true] at hv
    have hv2 : validListRequest isoOk
        { p with start_date := sd2, end_date := ed2 } = false := by
      rw [← hval]; exact hv
    rw [hv, hv2]
    rfl

theorem query_by_user_nk {t : Table} {u : String} {sd ed : Option String}
    {limit : Nat} {lek : Option KeyMap} {ms : List ImageMetadata}
    {nk : Option KeyMap}
    (h : query_by_user t u sd ed limit lek = Except.ok (ms, nk)) :
    nk = none ∨ ∃ it, nk = some (itemQueryKey it) := by
  unfold query_by_user at h
  cases lek with
  | none => exact pageResult_ok_nk h
  | some k =>
    simp only [] at h
    split at h
    · exact pageResult_ok_nk h
    · simp at h

theorem scan_all_nk {t : Table} {limit : Nat} {lek : Option KeyMap}
    {ms : List ImageMetadata} {nk : Option KeyMap}
    (h : scan_all t limit lek = Except.ok (ms, nk)) :
    nk = none ∨ ∃ it : Item, nk = some [("image_id", it.image_id)] := by
  unfold scan_all at h
  cases lek with
  | none => exact pageResult_ok_nk h
  | some k =>
    simp only [] at h
    split at h
    · exact pageResult_ok_nk h
    · simp at h

/-- C3: the cursor codec round-trips every representable (string-valued,
BMP) native key; an absent or empty backend key yields no token; and on
every successful list response the token is present exactly when
`has_more` reports a backend continuation key. -/
theorem c3_cursor_roundtrip_and_token_presence :
    (∀ km : KeyMap, bmpKeyMap km → decodeToken (encodeToken km) = some km) ∧
    encodeNextToken none = none ∧
    encodeNextToken (some []) = none ∧
    (∀ (isoOk : String → Bool) (t : Table) (p : ListRequestParams) (o : ListOk),
      list_images isoOk t p = Except.ok o →
      (o.next_token.isSome = true ↔ o.has_more = true)) := by
  refine ⟨fun km h => decodeToken_encodeToken h, rfl, rfl, ?_⟩
  intro isoOk t p o h
  unfold list_images at h
  split at h
  case isFalse => simp at h
  case isTrue =>
    split at h
    case h_1 e heq => simp at h
    case h_2 lek heq =>
      split at h
      case h_1 msg hb => simp at h
      case h_2 images nkB hb =>
        injection h with h1
        subst h1
        have hshape : nkB = none ∨ (∃ it : Item, nkB = some (itemQueryKey it)) ∨
            (∃ it : Item, nkB = some [("image_id", it.image_id)]) := by
          cases huser : optTruthy p.user_id with
          | some u =>
            rw [huser] at hb
            rcases query_by_user_nk hb with hn | ⟨it, hit⟩
            · exact Or.inl hn
            · exact Or.inr (Or.inl ⟨it, hit⟩)
          | none =>
            rw [huser] at hb
            rcases scan_all_nk hb with hn | ⟨it, hit⟩
            · exact Or.inl hn
            · exact Or.inr (Or.inr ⟨it, hit⟩)
        rcases hshape with rfl | ⟨it, rfl⟩ | ⟨it, rfl⟩
        · simp [encodeNextToken, hasMoreOf]
        · simp [encodeNextToken, hasMoreOf, itemQueryKey]
        · simp [encodeNextToken, hasMoreOf]

/-- Witness for C3: the round trip at a concrete three-attribute key, and
the token/has_more agreement on a concrete successful response. -/
theorem c3_cursor_roundtrip_and_token_presence_witness :
    decodeToken (encodeToken
      [("user_id", "u1"), ("upload_timestamp", "2024-01-01T00:00:00"),
       ("image_id", "i-1")]) =
      some [("user_id", "u1"), ("upload_timestamp", "2024-01-01T00:00:00"),
            ("image_id", "i-1")] ∧
    (({ images := [], count := 0, next_token := none, has_more := false
        : ListOk }).next_token.isSome = true ↔
      ({ images := [], count := 0, next_token := none, has_more := false
        : ListOk }).has_more = true) :=
  ⟨c3_cursor_roundtrip_and_token_presence.1 _ (by decide),
   c3_cursor_roundtrip_and_token_presence.2.2.2 (fun _ => true) []
     { user_id := none, start_date := none, end_date := none, limit := 50,
       next_token := none }
     { images := [], count := 0, next_token := none, has_more := false }
     (by rfl)⟩

/-- C4 counterexample: a token that is valid base64 of valid JSON but whose
key names do not belong to any key schema decodes successfully, is
forwarded to the backend, and the backend rejection surfaces as an
InternalError 500 — not as the claimed ValidationError 400. -/
theorem c4_wrong_key_names_surface_as_500 :
    decodeToken (encodeToken [("foo", "bar")]) = some [("foo", "bar")] ∧
    list_images (fun _ => true) []
      { user_id := none, start_date := none, end_date := none, limit := 50,
        next_token := some (encodeToken [("foo", "bar")]) } =
      Except.error (ErrorKind.internal,
        "Failed to list images: ValidationException: the provided starting key is invalid") ∧
    apiStatus (list_images (fun _ => true) []
      { user_id := none, start_date := none, end_date := none, limit := 50,
        next_token := some (encodeToken [("foo", "bar")]) }) = 500 := by
  refine ⟨by rfl, by rfl, by rfl⟩

/-- C4 amended: a token whose base64 or JSON decoding fails is rejected as
ValidationError 400 and never crashes; but a token decoding to a key map
with wrong attribute names passes the handler's decode step untouched and
the backend's rejection surfaces as InternalError 500. -/
theorem c4_invalid_token_handling (isoOk : String → Bool) (t : Table)
    (p : ListRequestParams) (tok : String)
    (hv : validListRequest isoOk p = true)
    (ht : optTruthy p.next_token = some tok) :
    (decodeToken tok = none →
      list_images isoOk t p =
        Except.error (ErrorKind.validation, "Invalid pagination token") ∧
      apiStatus (list_images isoOk t p) = 400) ∧
    (∀ k : KeyMap, decodeToken tok = some k →
      optTruthy p.user_id = none →
      validStartKey scanKeyNames k = false →
      list_images isoOk t p =
        Except.error (ErrorKind.internal,
          "Failed to list images: ValidationException: the provided starting key is invalid") ∧
      apiStatus (list_images isoOk t p) = 500) := by
  constructor
  · intro hdec
    have hl : list_images isoOk t p =
        Except.error (ErrorKind.validation, "Invalid pagination token") := by
      unfold list_images
      rw [hv, ht]
      simp only []
      rw [hdec]
      rfl
    exact ⟨hl, by rw [hl]; rfl⟩
  · intro k hdec huser hkey
    have hl : list_images isoOk t p =
        Except.error (ErrorKind.internal,
          "Failed to list images: ValidationException: the provided starting key is invalid") := by
      unfold list_images
      rw [hv, ht]
      simp only []
      rw [hdec]
      simp only []
      rw [huser]
      unfold scan_all
      simp only []
      rw [hkey]
      rfl
    exact ⟨hl, by rw [hl]; rfl⟩

/-- Witness for the amended C4: an undecodable token is a 400, and the
wrong-key-names token is a 500, at concrete inputs. -/
theorem c4_invalid_token_handling_witness :
    (decodeToken "!!!" = none →
      list_images (fun _ => true) []
        { user_id := none, start_date := none, end_date := none, limit := 50,
          next_token := some "!!!" } =
        Except.error (ErrorKind.validation, "Invalid pagination token") ∧
      apiStatus (list_images (fun _ => true) []
        { user_id := none, start_date := none, end_date := none, limit := 50,
          next_token := some "!!!" }) = 400) ∧
    (∀ k : KeyMap, decodeToken "!!!" = some k →
      optTruthy (none : Option String) = none →
      validStartKey scanKeyNames k = false →
      list_images (fun _ => true) []
        { user_id := none, start_date := none, end_date := none, limit := 50,
          next_token := some "!!!" } =
        Except.error (ErrorKind.internal,
          "Failed to list images: ValidationException: the provided starting key is invalid") ∧
      apiStatus (list_images (fun _ => true) []
        { user_id := none, start_date := none, end_date := none, limit := 50,
          next_token := some "!!!" }) = 500) :=
  c4_invalid_token_handling (fun _ => true) []
    { user_id := none, start_date := none, end_date := none, limit := 50,
      next_token := some "!!!" } "!!!" (by rfl) (by rfl)

/-- Sample records for the C5 witness. -/
def c5m1 : ImageMetadata :=
  { image_id := "i1", user_id := "u1", filename := "a.jpg",
    content_type := "image/jpeg", file_size := 5,
    upload_timestamp := "2024-01-01T00:00:00", tags := none,
    description := none, status := ImageStatus.completed, s3_key := "k1" }

/-- Second sample record for the C5 witness, one day later. -/
def c5m2 : ImageMetadata :=
  { image_id := "i2", user_id := "u1", filename := "b.jpg",
    content_type := "image/png", file_size := 6,
    upload_timestamp := "2024-01-02T00:00:00", tags := none,
    description := none, status := ImageStatus.completed, s3_key := "k2" }

/-- Witness for C5: a two-record owner partition queried without bounds
comes back in descending timestamp order with both records owned by the
queried user. -/
theorem c5_query_by_owner_filter_and_order_witness :
    (∀ m ∈ [c5m2, c5m1],
      m.user_id = "u1" ∧ tsInRange none none m.upload_timestamp = true) ∧
    (∀ s e, optTruthy (none : Option String) = some s →
      optTruthy (none : Option String) = some e →
      ∀ m ∈ [c5m2, c5m1], strLe s m.upload_timestamp = true ∧
        strLe m.upload_timestamp e = true) ∧
    (∀ s, optTruthy (none : Option String) = some s →
      optTruthy (none : Option String) = none →
      ∀ m ∈ [c5m2, c5m1], strLe s m.upload_timestamp = true) ∧
    (∀ e, optTruthy (none : Option String) = none →
      optTruthy (none : Option String) = some e →
      ∀ m ∈ [c5m2, c5m1], strLe m.upload_timestamp e = true) ∧
    List.Pairwise
      (fun a b => strLe b.upload_timestamp a.upload_timestamp = true)
      [c5m2, c5m1] :=
  c5_query_by_owner_filter_and_order
    [metadataToItem c5m1 "T", metadataToItem c5m2 "T"]
    "u1" none none 10 none [c5m2, c5m1] none (by rfl)

/-- Witness for C10: two list requests over the same table differing only
in their (valid or absent) date bounds return identical responses on the
unfiltered path. -/
theorem c10_scan_path_ignores_date_bounds_witness :
    list_images (fun _ => true) [metadataToItem c5m1 "T"]
      { user_id := none, start_date := some "2024-01-01T00:00:00",
        end_date := none, limit := 50, next_token := none } =
    list_images (fun _ => true) [metadataToItem c5m1 "T"]
      { user_id := none, start_date := none,
        end_date := some "2025-12-31T00:00:00", limit := 50,
        next_token := none } :=
  c10_scan_path_ignores_date_bounds (fun _ => true) [metadataToItem c5m1 "T"]
    { user_id := none, start_date := none, end_date := none, limit := 50,
      next_token := none }
    (some "2024-01-01T00:00:00") none none (some "2025-12-31T00:00:00")
    (by rfl) (by rfl) (by rfl) (by rfl) (by rfl)
